import Mathlib

/-!
# Rawl parimutuel wagering escrow — verification development

Shallow embedding of the `rawl` Anchor program
(`packages/contracts/programs/rawl/src`), covering the match lifecycle,
the parimutuel payout/fee/refund engine and the bookkeeping invariants.

Modelling conventions:
* Machine integers (`u64`, `u32`, `u16`, `u128`, `i64`) are `Nat` / `Int`
  with explicit width limits; every Rust `checked_*` operation becomes an
  explicit guard returning `RawlError.Overflow`, exactly where the source
  places it; `as u64` narrowing is `% U64LIMIT`; `u64::try_from` is a
  guarded narrowing; `saturating_sub` on `u32`/`Nat` is `Nat` subtraction.
* Lamport balances live on accounts; the raw `**acc -= x` mutation used by
  `claim_payout` / `refund_bet` carries no balance check in the source and
  is modelled as wrapping `u64` subtraction; handlers that do check
  (`refund_no_winners`, `sweep_unclaimed`) or cap at the balance
  (`sweep_cancelled`, `withdraw_fees`, `close_match`) are modelled as such.
* Each instruction handler is a pure function `... → Except RawlError σ`;
  the Solana host commits all-or-nothing, so an error result leaves the
  pre-state untouched.
* The account/identity layer (PDA derivation, signers) is external to the
  core: pubkeys are opaque `Nat`s; the PDA uniqueness guarantee (at most
  one `Bet` per bettor per match) appears as the host-level
  `AccountAlreadyInitialized` / `AccountNotFound` outcomes surrounding a
  handler call; signer authorization checks are host-verified constraints
  orthogonal to the verified properties.
* The world state models one match (pool, its bets, its vault) together
  with the global `PlatformConfig`; operations on other matches touch
  neither this pool nor this vault, so the single-match world is faithful
  for per-match properties.
-/

namespace Rawl

/-- `2^64`: u64 values are `< U64LIMIT`. -/
def U64LIMIT : Nat := 18446744073709551616

/-- `2^128`: u128 values are `< U128LIMIT`. -/
def U128LIMIT : Nat := 340282366920938463463374607431768211456

/-- `2^32`: u32 values are `< U32LIMIT`. -/
def U32LIMIT : Nat := 4294967296

/-- constants.rs: `MAX_FEE_BPS = 1000` (10% max). -/
def MAX_FEE_BPS : Nat := 1000

/-- constants.rs: `CLAIM_WINDOW_SECONDS = 30 * 24 * 60 * 60` (30 days). -/
def CLAIM_WINDOW_SECONDS : Int := 2592000

/-- i64 `saturating_sub`, used by the time-gate computations. -/
def i64SatSub (a b : Int) : Int :=
  max (min (a - b) (2 ^ 63 - 1)) (-(2 ^ 63))

/-- errors.rs `RawlError`, plus the two host/account-layer outcomes the
embedding needs (`AccountNotFound`, `AccountAlreadyInitialized`), plus
`WinnersExist`, which `refund_no_winners.rs` references although
`errors.rs` declares only `WinningBetCountNotZero`. -/
inductive RawlError where
  | Unauthorized
  | OracleUnauthorized
  | InvalidMatchStatus
  | MatchNotOpen
  | MatchNotLocked
  | MatchNotResolved
  | MatchNotCancelled
  | ZeroBetAmount
  | BetOnLosingSide
  | AlreadyClaimed
  | TimeoutNotElapsed
  | ClaimWindowNotElapsed
  | Overflow
  | InvalidFeeBps
  | InvalidSide
  | PlatformPaused
  | BetCountNotZero
  | WinningBetCountNotZero
  | BetBelowMinimum
  | BettingWindowClosed
  | FeesAlreadyWithdrawn
  | InsufficientVault
  | InvalidTimeout
  | InvalidBettingWindow
  | WinnersExist
  | AccountNotFound
  | AccountAlreadyInitialized
  deriving DecidableEq, Repr

/-- state/match_pool.rs `MatchStatus`. -/
inductive MatchStatus where
  | Open
  | Locked
  | Resolved
  | Cancelled
  deriving DecidableEq, Repr

/-- state/match_pool.rs `MatchWinner`. -/
inductive MatchWinner where
  | None
  | SideA
  | SideB
  deriving DecidableEq, Repr

/-- state/bet.rs `BetSide`. -/
inductive BetSide where
  | SideA
  | SideB
  deriving DecidableEq, Repr

/-- state/platform_config.rs `PlatformConfig` (sans PDA bump). -/
structure PlatformConfig where
  authority : Nat
  oracle : Nat
  fee_bps : Nat
  treasury : Nat
  paused : Bool
  match_timeout : Int
  deriving DecidableEq, Repr

/-- state/match_pool.rs `MatchPool` (sans `match_id`/bumps, which belong to
the excluded identity layer).

`fee_bps` and `fees_withdrawn` — Modelled from the spec: the settlement
handlers (`refund_no_winners.rs`, `sweep_unclaimed.rs`, `withdraw_fees.rs`)
read `pool.fee_bps` and `pool.fees_withdrawn`, but the `MatchPool`
declaration in state/match_pool.rs contains neither member. The spec's
data model lists `fees_withdrawn` (bool) and describes `fee_bps` as
"the fee rate snapshotted on the match at resolution time", so both are
modelled as fields here: `fees_withdrawn` starts `false`, `fee_bps` is
assigned from the live config when the match resolves. -/
structure MatchPool where
  fighter_a : Nat
  fighter_b : Nat
  side_a_total : Nat
  side_b_total : Nat
  side_a_bet_count : Nat
  side_b_bet_count : Nat
  winning_bet_count : Nat
  bet_count : Nat
  status : MatchStatus
  winner : MatchWinner
  oracle : Nat
  creator : Nat
  created_at : Int
  lock_timestamp : Int
  resolve_timestamp : Int
  cancel_timestamp : Int
  min_bet : Nat
  betting_window : Int
  fee_bps : Nat
  fees_withdrawn : Bool
  deriving DecidableEq, Repr

/-- state/bet.rs `Bet` (sans `match_id`/bump). -/
structure Bet where
  bettor : Nat
  side : BetSide
  amount : Nat
  claimed : Bool
  deriving DecidableEq, Repr

/-- state/bet.rs `Bet::is_winner`. -/
def Bet.is_winner (b : Bet) (match_winner : MatchWinner) : Bool :=
  match b.side, match_winner with
  | BetSide.SideA, MatchWinner.SideA => true
  | BetSide.SideB, MatchWinner.SideB => true
  | _, _ => false

/-- One match's core state: its pool record, its still-open `Bet` records
and its vault's lamport balance. -/
structure MatchState where
  pool : MatchPool
  bets : List Bet
  vault : Nat
  deriving DecidableEq, Repr

/-- Host account-layer lookup of the bet PDA for `(match, bettor)`. -/
def findBet (bets : List Bet) (who : Nat) : Option Bet :=
  bets.find? (fun b => b.bettor == who)

/-- Host account-layer `close` of the bet PDA for `(match, bettor)`. -/
def removeBet (bets : List Bet) (who : Nat) : List Bet :=
  bets.filter (fun b => b.bettor != who)

/-- In-place update of the bet record for `who` (sets `claimed := true`),
as done by `claim_payout`. -/
def setClaimed (bets : List Bet) (who : Nat) : List Bet :=
  bets.map (fun b => if b.bettor == who then { b with claimed := true } else b)

/-- instructions/initialize.rs `handler`. -/
def initPlatform (authority oracle treasury : Nat) (fee_bps : Nat)
    (match_timeout : Int) : Except RawlError PlatformConfig :=
  if ¬ (fee_bps ≤ MAX_FEE_BPS) then .error RawlError.InvalidFeeBps
  else .ok { authority := authority, oracle := oracle, fee_bps := fee_bps,
             treasury := treasury, paused := false,
             match_timeout := match_timeout }

/-- instructions/create_match.rs `handler`. The handler assigns every field
it names; `min_bet`, `betting_window` (and the modelled `fee_bps`,
`fees_withdrawn`) are not assigned and therefore keep Anchor's zeroed
account initialization (`#[derive(Default)]` on a fresh `init` account).
The vault PDA is created holding `rentMin` lamports
(`rent.minimum_balance(0)`, a host-supplied value). -/
def createMatch (config : PlatformConfig) (fighter_a fighter_b creator : Nat)
    (rentMin : Nat) (now : Int) : Except RawlError MatchState :=
  if config.paused then .error RawlError.PlatformPaused
  else .ok { pool :=
          { fighter_a := fighter_a, fighter_b := fighter_b,
            side_a_total := 0, side_b_total := 0,
            side_a_bet_count := 0, side_b_bet_count := 0,
            winning_bet_count := 0, bet_count := 0,
            status := MatchStatus.Open, winner := MatchWinner.None,
            oracle := config.oracle, creator := creator,
            created_at := now, lock_timestamp := 0,
            resolve_timestamp := 0, cancel_timestamp := 0,
            min_bet := 0, betting_window := 0,
            fee_bps := 0, fees_withdrawn := false },
             bets := [], vault := rentMin }

/-- The state written by a successful `place_bet` on side A: stake moved
into the vault, side totals/counts and `bet_count` incremented, the new
`Bet` record initialized. -/
def placeBetResultA (st : MatchState) (who : Nat) (amount : Nat) :
    MatchState :=
  { pool := { st.pool with
      side_a_total := st.pool.side_a_total + amount,
      side_a_bet_count := st.pool.side_a_bet_count + 1,
      bet_count := st.pool.bet_count + 1 },
    bets := st.bets ++ [{ bettor := who, side := BetSide.SideA,
                          amount := amount, claimed := false }],
    vault := st.vault + amount }

/-- The state written by a successful `place_bet` on side B. -/
def placeBetResultB (st : MatchState) (who : Nat) (amount : Nat) :
    MatchState :=
  { pool := { st.pool with
      side_b_total := st.pool.side_b_total + amount,
      side_b_bet_count := st.pool.side_b_bet_count + 1,
      bet_count := st.pool.bet_count + 1 },
    bets := st.bets ++ [{ bettor := who, side := BetSide.SideB,
                          amount := amount, claimed := false }],
    vault := st.vault + amount }

/-- instructions/place_bet.rs `handler`. The `init` of the bet PDA fails at
the account layer when a bet for this `(match, bettor)` already exists; the
host lamport transfer into the vault fails when the vault's `u64` balance
would overflow. -/
def placeBet (st : MatchState) (who : Nat) (side : Nat) (amount : Nat)
    (now : Int) : Except RawlError MatchState :=
  if (findBet st.bets who).isSome then .error RawlError.AccountAlreadyInitialized
  else if ¬ (amount > 0) then .error RawlError.ZeroBetAmount
  else if ¬ (st.pool.status = MatchStatus.Open) then .error RawlError.MatchNotOpen
  else if st.pool.min_bet > 0 ∧ ¬ (amount ≥ st.pool.min_bet) then
    .error RawlError.BetBelowMinimum
  -- i64 checked_add of created_at + betting_window; both within i64 range,
  -- modelled as exact Int addition
  else if st.pool.betting_window > 0 ∧
      ¬ (now ≤ st.pool.created_at + st.pool.betting_window) then
    .error RawlError.BettingWindowClosed
  -- system_program::transfer bettor → vault; the host aborts when the
  -- vault's u64 balance would overflow
  else if ¬ (st.vault + amount < U64LIMIT) then .error RawlError.Overflow
  else match side with
    | 0 =>
      if ¬ (st.pool.side_a_total + amount < U64LIMIT) then
        .error RawlError.Overflow
      else if ¬ (st.pool.side_a_bet_count + 1 < U32LIMIT) then
        .error RawlError.Overflow
      else if ¬ (st.pool.bet_count + 1 < U32LIMIT) then
        .error RawlError.Overflow
      else .ok (placeBetResultA st who amount)
    | 1 =>
      if ¬ (st.pool.side_b_total + amount < U64LIMIT) then
        .error RawlError.Overflow
      else if ¬ (st.pool.side_b_bet_count + 1 < U32LIMIT) then
        .error RawlError.Overflow
      else if ¬ (st.pool.bet_count + 1 < U32LIMIT) then
        .error RawlError.Overflow
      else .ok (placeBetResultB st who amount)
    | _ => .error RawlError.InvalidSide

/-- instructions/lock_match.rs `handler`. -/
def lockMatch (st : MatchState) (now : Int) : Except RawlError MatchState :=
  if ¬ (st.pool.status = MatchStatus.Open) then .error RawlError.MatchNotOpen
  else .ok { st with pool := { st.pool with status := MatchStatus.Locked,
                                            lock_timestamp := now } }

/-- instructions/resolve_match.rs `handler`.

The `fee_bps` assignment is Modelled from the spec: the source handler does
not write any fee snapshot (no such field exists on `MatchPool`), but the
spec states the settlement paths use "the fee rate snapshotted on the
match at resolution time", so the snapshot is taken here. -/
def resolveMatch (st : MatchState) (config : PlatformConfig) (winner : Nat)
    (now : Int) : Except RawlError MatchState :=
  if ¬ (st.pool.status = MatchStatus.Locked) then .error RawlError.MatchNotLocked
  else match winner with
    | 0 => .ok { st with pool := { st.pool with
              winner := MatchWinner.SideA, status := MatchStatus.Resolved,
              resolve_timestamp := now,
              winning_bet_count := st.pool.side_a_bet_count,
              fee_bps := config.fee_bps } }
    | 1 => .ok { st with pool := { st.pool with
              winner := MatchWinner.SideB, status := MatchStatus.Resolved,
              resolve_timestamp := now,
              winning_bet_count := st.pool.side_b_bet_count,
              fee_bps := config.fee_bps } }
    | _ => .error RawlError.InvalidSide

/-- instructions/cancel_match.rs `handler`. -/
def cancelMatch (st : MatchState) (now : Int) : Except RawlError MatchState :=
  if ¬ (st.pool.status = MatchStatus.Open ∨ st.pool.status = MatchStatus.Locked)
    then .error RawlError.InvalidMatchStatus
  else .ok { st with pool := { st.pool with status := MatchStatus.Cancelled,
                                            cancel_timestamp := now } }

/-- instructions/timeout_match.rs `handler`. -/
def timeoutMatch (st : MatchState) (config : PlatformConfig) (now : Int) :
    Except RawlError MatchState :=
  if ¬ (st.pool.status = MatchStatus.Locked) then .error RawlError.MatchNotLocked
  else if ¬ (i64SatSub now st.pool.lock_timestamp > config.match_timeout) then
    .error RawlError.TimeoutNotElapsed
  else .ok { st with pool := { st.pool with status := MatchStatus.Cancelled,
                                            cancel_timestamp := now } }

/-- instructions/claim_payout.rs `handler`, payout computation (u128
intermediates; trailing `as u64` truncating cast). `fee_bps` is the value
the handler reads — the **live** `platform_config.fee_bps`. -/
def claimPayoutCalc (pool : MatchPool) (fee_bps : Nat) (amount : Nat) :
    Except RawlError Nat :=
  let total_pool := pool.side_a_total + pool.side_b_total
  if ¬ (total_pool < U128LIMIT) then .error RawlError.Overflow
  else if ¬ (total_pool * fee_bps < U128LIMIT) then .error RawlError.Overflow
  else
    let fee := total_pool * fee_bps / 10000
    if ¬ (fee ≤ total_pool) then .error RawlError.Overflow
    else
      let net_pool := total_pool - fee
      match pool.winner with
      | MatchWinner.None => .error RawlError.InvalidMatchStatus
      | MatchWinner.SideA =>
        if ¬ (net_pool * amount < U128LIMIT) then .error RawlError.Overflow
        else if pool.side_a_total = 0 then .error RawlError.Overflow
        else .ok (net_pool * amount / pool.side_a_total % U64LIMIT)
      | MatchWinner.SideB =>
        if ¬ (net_pool * amount < U128LIMIT) then .error RawlError.Overflow
        else if pool.side_b_total = 0 then .error RawlError.Overflow
        else .ok (net_pool * amount / pool.side_b_total % U64LIMIT)

/-- instructions/sweep_unclaimed.rs `handler`, payout computation: same
formula but reading the match's `pool.fee_bps` snapshot and narrowing with
`u64::try_from` instead of `as u64`. -/
def sweepPayoutCalc (pool : MatchPool) (amount : Nat) :
    Except RawlError Nat :=
  let total_pool := pool.side_a_total + pool.side_b_total
  if ¬ (total_pool < U128LIMIT) then .error RawlError.Overflow
  else if ¬ (total_pool * pool.fee_bps < U128LIMIT) then
    .error RawlError.Overflow
  else
    let fee := total_pool * pool.fee_bps / 10000
    if ¬ (fee ≤ total_pool) then .error RawlError.Overflow
    else
      let net_pool := total_pool - fee
      match pool.winner with
      | MatchWinner.None => .error RawlError.InvalidMatchStatus
      | MatchWinner.SideA =>
        if ¬ (net_pool * amount < U128LIMIT) then .error RawlError.Overflow
        else if pool.side_a_total = 0 then .error RawlError.Overflow
        else if ¬ (net_pool * amount / pool.side_a_total < U64LIMIT) then
          .error RawlError.Overflow
        else .ok (net_pool * amount / pool.side_a_total)
      | MatchWinner.SideB =>
        if ¬ (net_pool * amount < U128LIMIT) then .error RawlError.Overflow
        else if pool.side_b_total = 0 then .error RawlError.Overflow
        else if ¬ (net_pool * amount / pool.side_b_total < U64LIMIT) then
          .error RawlError.Overflow
        else .ok (net_pool * amount / pool.side_b_total)

/-- instructions/refund_no_winners.rs, refund computation:
`u64::try_from(amount * (10000 - pool.fee_bps) / 10000)` with checked ops. -/
def refundNoWinnersCalc (pool : MatchPool) (amount : Nat) :
    Except RawlError Nat :=
  if ¬ (pool.fee_bps ≤ 10000) then .error RawlError.Overflow
  else if ¬ (amount * (10000 - pool.fee_bps) < U128LIMIT) then
    .error RawlError.Overflow
  else if ¬ (amount * (10000 - pool.fee_bps) / 10000 < U64LIMIT) then
    .error RawlError.Overflow
  else .ok (amount * (10000 - pool.fee_bps) / 10000)

/-- instructions/withdraw_fees.rs, fee computation:
`u64::try_from(total_pool * pool.fee_bps / 10000)` with checked ops. -/
def withdrawFeesCalc (pool : MatchPool) : Except RawlError Nat :=
  let total_pool := pool.side_a_total + pool.side_b_total
  if ¬ (total_pool < U128LIMIT) then .error RawlError.Overflow
  else if ¬ (total_pool * pool.fee_bps < U128LIMIT) then
    .error RawlError.Overflow
  else if ¬ (total_pool * pool.fee_bps / 10000 < U64LIMIT) then
    .error RawlError.Overflow
  else .ok (total_pool * pool.fee_bps / 10000)

/-- instructions/claim_payout.rs `handler`. The vault debit
`**vault -= payout` carries no balance check; it is raw wrapping `u64`
subtraction. -/
def claimPayout (st : MatchState) (config : PlatformConfig) (who : Nat) :
    Except RawlError MatchState :=
  match findBet st.bets who with
  | none => .error RawlError.AccountNotFound
  | some bet =>
    if ¬ (st.pool.status = MatchStatus.Resolved) then
      .error RawlError.MatchNotResolved
    else if bet.claimed then .error RawlError.AlreadyClaimed
    else if ¬ (bet.is_winner st.pool.winner) then
      .error RawlError.BetOnLosingSide
    else match claimPayoutCalc st.pool config.fee_bps bet.amount with
      | .error e => .error e
      | .ok payout =>
        .ok { pool := { st.pool with
                winning_bet_count := st.pool.winning_bet_count - 1 },
              bets := setClaimed st.bets who,
              vault := (st.vault + U64LIMIT - payout) % U64LIMIT }

/-- instructions/refund_no_winners.rs `handler`. Requires status=Resolved
and `winning_bet_count == 0` at call time; checks the vault balance before
the debit; closes the bet record. -/
def refundNoWinners (st : MatchState) (who : Nat) :
    Except RawlError MatchState :=
  match findBet st.bets who with
  | none => .error RawlError.AccountNotFound
  | some bet =>
    if ¬ (st.pool.status = MatchStatus.Resolved) then
      .error RawlError.MatchNotResolved
    else if ¬ (st.pool.winning_bet_count = 0) then .error RawlError.WinnersExist
    else match refundNoWinnersCalc st.pool bet.amount with
      | .error e => .error e
      | .ok refund =>
        if ¬ (st.vault ≥ refund) then .error RawlError.InsufficientVault
        else .ok { pool := { st.pool with bet_count := st.pool.bet_count - 1 },
                   bets := removeBet st.bets who,
                   vault := st.vault - refund }

/-- instructions/refund_bet.rs `handler`. The debit `**vault -= bet.amount`
carries no balance check; raw wrapping `u64` subtraction. -/
def refundBet (st : MatchState) (who : Nat) : Except RawlError MatchState :=
  match findBet st.bets who with
  | none => .error RawlError.AccountNotFound
  | some bet =>
    if ¬ (st.pool.status = MatchStatus.Cancelled) then
      .error RawlError.MatchNotCancelled
    else .ok { pool := { st.pool with bet_count := st.pool.bet_count - 1 },
               bets := removeBet st.bets who,
               vault := (st.vault + U64LIMIT - bet.amount) % U64LIMIT }

/-- instructions/close_bet.rs `handler`. -/
def closeBet (st : MatchState) (who : Nat) : Except RawlError MatchState :=
  match findBet st.bets who with
  | none => .error RawlError.AccountNotFound
  | some bet =>
    if ¬ (st.pool.status = MatchStatus.Resolved) then
      .error RawlError.MatchNotResolved
    else if bet.is_winner st.pool.winner ∧ ¬ bet.claimed then
      .error RawlError.AlreadyClaimed
    else .ok { pool := { st.pool with bet_count := st.pool.bet_count - 1 },
               bets := removeBet st.bets who,
               vault := st.vault }

/-- instructions/sweep_unclaimed.rs `handler` (payout to treasury; vault
balance checked before the debit). -/
def sweepUnclaimed (st : MatchState) (who : Nat) (now : Int) :
    Except RawlError MatchState :=
  match findBet st.bets who with
  | none => .error RawlError.AccountNotFound
  | some bet =>
    if ¬ (st.pool.status = MatchStatus.Resolved) then
      .error RawlError.MatchNotResolved
    else if bet.claimed then .error RawlError.AlreadyClaimed
    else if ¬ (bet.is_winner st.pool.winner) then
      .error RawlError.BetOnLosingSide
    else if ¬ (i64SatSub now st.pool.resolve_timestamp ≥ CLAIM_WINDOW_SECONDS)
      then .error RawlError.ClaimWindowNotElapsed
    else match sweepPayoutCalc st.pool bet.amount with
      | .error e => .error e
      | .ok payout =>
        if ¬ (st.vault ≥ payout) then .error RawlError.InsufficientVault
        else .ok { pool := { st.pool with
                     winning_bet_count := st.pool.winning_bet_count - 1,
                     bet_count := st.pool.bet_count - 1 },
                   bets := removeBet st.bets who,
                   vault := st.vault - payout }

/-- instructions/sweep_cancelled.rs `handler` (wager returned to the
bettor; the transfer amount is `bet.amount.min(vault.lamports())`). -/
def sweepCancelled (st : MatchState) (who : Nat) (now : Int) :
    Except RawlError MatchState :=
  match findBet st.bets who with
  | none => .error RawlError.AccountNotFound
  | some bet =>
    if ¬ (st.pool.status = MatchStatus.Cancelled) then
      .error RawlError.MatchNotCancelled
    else if ¬ (i64SatSub now st.pool.cancel_timestamp ≥ CLAIM_WINDOW_SECONDS)
      then .error RawlError.ClaimWindowNotElapsed
    else .ok { pool := { st.pool with bet_count := st.pool.bet_count - 1 },
               bets := removeBet st.bets who,
               vault := st.vault - min bet.amount st.vault }

/-- instructions/withdraw_fees.rs `handler` (transfer is
`fee.min(vault.lamports())`; one-time via `fees_withdrawn`). -/
def withdrawFees (st : MatchState) (now : Int) :
    Except RawlError MatchState :=
  if ¬ (st.pool.status = MatchStatus.Resolved) then
    .error RawlError.MatchNotResolved
  else if st.pool.fees_withdrawn then .error RawlError.FeesAlreadyWithdrawn
  else if ¬ (st.pool.winning_bet_count = 0) then
    .error RawlError.WinningBetCountNotZero
  else if ¬ (i64SatSub now st.pool.resolve_timestamp ≥ CLAIM_WINDOW_SECONDS)
    then .error RawlError.ClaimWindowNotElapsed
  else match withdrawFeesCalc st.pool with
    | .error e => .error e
    | .ok fee =>
      .ok { pool := { st.pool with fees_withdrawn := true },
            bets := st.bets,
            vault := st.vault - min fee st.vault }

/-- instructions/close_match.rs `handler` guard; on success the host closes
the pool and drains the whole vault to the authority. -/
def closeMatchCheck (st : MatchState) : Except RawlError Unit :=
  if ¬ (st.pool.bet_count = 0) then .error RawlError.BetCountNotZero
  else .ok ()

/-- instructions/update_config.rs, non-failing `paused`/`oracle`/`treasury`
arms. -/
def updateConfigTail (config : PlatformConfig) (paused : Option Bool)
    (oracle : Option Nat) (treasury : Option Nat) : PlatformConfig :=
  let config := match paused with
    | some p => { config with paused := p }
    | none => config
  let config := match oracle with
    | some o => { config with oracle := o }
    | none => config
  match treasury with
  | some t => { config with treasury := t }
  | none => config

/-- instructions/update_config.rs, `match_timeout` arm onwards. -/
def updateConfigRest (config : PlatformConfig) (match_timeout : Option Int)
    (paused : Option Bool) (oracle : Option Nat) (treasury : Option Nat) :
    Except RawlError PlatformConfig :=
  match match_timeout with
  | some t =>
    if ¬ (t > 0) then .error RawlError.InvalidTimeout
    else .ok (updateConfigTail { config with match_timeout := t }
                paused oracle treasury)
  | none => .ok (updateConfigTail config paused oracle treasury)

/-- instructions/update_config.rs `handler` (independently-optional
updates; any failed check aborts the whole operation — host atomicity). -/
def updateConfig (config : PlatformConfig) (fee_bps : Option Nat)
    (match_timeout : Option Int) (paused : Option Bool)
    (oracle : Option Nat) (treasury : Option Nat) :
    Except RawlError PlatformConfig :=
  match fee_bps with
  | some f =>
    if ¬ (f ≤ MAX_FEE_BPS) then .error RawlError.InvalidFeeBps
    else updateConfigRest { config with fee_bps := f }
        match_timeout paused oracle treasury
  | none => updateConfigRest config match_timeout paused oracle treasury

/-- instructions/update_authority.rs `handler` (dual-signature rotation;
the signature checks live in the excluded authorization layer). -/
def updateAuthority (config : PlatformConfig) (newAuthority : Nat) :
    PlatformConfig :=
  { config with authority := newAuthority }

/-- Global state: the platform configuration and (at most) one tracked
match with its bets and vault. -/
structure World where
  config : PlatformConfig
  matchSt : Option MatchState
  deriving DecidableEq, Repr

/-- One successful instruction execution, as a labelled transition.
Parameters an instruction reads from the environment (caller identities,
amounts, the host clock, rent) are existentials of each constructor. -/
inductive Step : World → World → Prop where
  | createStep (w : World) (fa fb creator rentMin : Nat) (now : Int)
      (ms : MatchState) (hnone : w.matchSt = none)
      -- the rent deposit is a host-supplied u64 lamport amount
      (hrent : rentMin < U64LIMIT)
      (h : createMatch w.config fa fb creator rentMin now = Except.ok ms) :
      Step w { config := w.config, matchSt := some ms }
  | placeBetStep (w : World) (st st' : MatchState)
      (who side amount : Nat) (now : Int)
      (hm : w.matchSt = some st)
      (h : placeBet st who side amount now = Except.ok st') :
      Step w { config := w.config, matchSt := some st' }
  | lockStep (w : World) (st st' : MatchState) (now : Int)
      (hm : w.matchSt = some st) (h : lockMatch st now = Except.ok st') :
      Step w { config := w.config, matchSt := some st' }
  | resolveStep (w : World) (st st' : MatchState) (winner : Nat) (now : Int)
      (hm : w.matchSt = some st)
      (h : resolveMatch st w.config winner now = Except.ok st') :
      Step w { config := w.config, matchSt := some st' }
  | cancelStep (w : World) (st st' : MatchState) (now : Int)
      (hm : w.matchSt = some st) (h : cancelMatch st now = Except.ok st') :
      Step w { config := w.config, matchSt := some st' }
  | timeoutStep (w : World) (st st' : MatchState) (now : Int)
      (hm : w.matchSt = some st)
      (h : timeoutMatch st w.config now = Except.ok st') :
      Step w { config := w.config, matchSt := some st' }
  | claimStep (w : World) (st st' : MatchState) (who : Nat)
      (hm : w.matchSt = some st)
      (h : claimPayout st w.config who = Except.ok st') :
      Step w { config := w.config, matchSt := some st' }
  | refundNoWinnersStep (w : World) (st st' : MatchState) (who : Nat)
      (hm : w.matchSt = some st)
      (h : refundNoWinners st who = Except.ok st') :
      Step w { config := w.config, matchSt := some st' }
  | refundBetStep (w : World) (st st' : MatchState) (who : Nat)
      (hm : w.matchSt = some st)
      (h : refundBet st who = Except.ok st') :
      Step w { config := w.config, matchSt := some st' }
  | closeBetStep (w : World) (st st' : MatchState) (who : Nat)
      (hm : w.matchSt = some st)
      (h : closeBet st who = Except.ok st') :
      Step w { config := w.config, matchSt := some st' }
  | sweepUnclaimedStep (w : World) (st st' : MatchState) (who : Nat)
      (now : Int) (hm : w.matchSt = some st)
      (h : sweepUnclaimed st who now = Except.ok st') :
      Step w { config := w.config, matchSt := some st' }
  | sweepCancelledStep (w : World) (st st' : MatchState) (who : Nat)
      (now : Int) (hm : w.matchSt = some st)
      (h : sweepCancelled st who now = Except.ok st') :
      Step w { config := w.config, matchSt := some st' }
  | withdrawFeesStep (w : World) (st st' : MatchState) (now : Int)
      (hm : w.matchSt = some st)
      (h : withdrawFees st now = Except.ok st') :
      Step w { config := w.config, matchSt := some st' }
  | closeMatchStep (w : World) (st : MatchState)
      (hm : w.matchSt = some st)
      (h : closeMatchCheck st = Except.ok ()) :
      Step w { config := w.config, matchSt := none }
  | updateConfigStep (w : World) (cfg' : PlatformConfig)
      (fee_bps : Option Nat) (match_timeout : Option Int)
      (paused : Option Bool) (oracle treasury : Option Nat)
      (h : updateConfig w.config fee_bps match_timeout paused oracle treasury
             = Except.ok cfg') :
      Step w { config := cfg', matchSt := w.matchSt }
  | updateAuthorityStep (w : World) (newAuthority : Nat) :
      Step w { config := updateAuthority w.config newAuthority,
               matchSt := w.matchSt }

/-- Post-`initialize` start worlds: a config produced by the `initialize`
instruction and no match yet. -/
def WorldInit (w : World) : Prop :=
  w.matchSt = none ∧
  ∃ authority oracle treasury fee_bps match_timeout,
    initPlatform authority oracle treasury fee_bps match_timeout
      = Except.ok w.config

/-- A world reachable from some initialized world by instruction steps. -/
def Reachable (w : World) : Prop :=
  ∃ w0, WorldInit w0 ∧ Relation.ReflTransGen Step w0 w

/-! ## Derived quantities: obligations and the solvency bound -/

/-- Sum of `f` over a bet list. -/
def sumBy (f : Bet → Nat) (l : List Bet) : Nat := (l.map f).sum

/-- Total stake of the listed bets. -/
def sumAmt (l : List Bet) : Nat := sumBy (fun b => b.amount) l

/-- Stake total of the listed bets on one side. -/
def sumSide (s : BetSide) (l : List Bet) : Nat :=
  sumBy (fun b => if b.side = s then b.amount else 0) l

/-- Number of listed bets on one side. -/
def countSide (s : BetSide) (l : List Bet) : Nat :=
  l.countP (fun b => b.side == s)

/-- The winning side's stake total recorded on the pool. -/
def winSideTotal (pool : MatchPool) : Nat :=
  match pool.winner with
  | MatchWinner.SideA => pool.side_a_total
  | MatchWinner.SideB => pool.side_b_total
  | MatchWinner.None => 0

/-- The winning side's bet count recorded on the pool (frozen at the last
`place_bet`, i.e. the count the resolution saw). -/
def winSideBetCount (pool : MatchPool) : Nat :=
  match pool.winner with
  | MatchWinner.SideA => pool.side_a_bet_count
  | MatchWinner.SideB => pool.side_b_bet_count
  | MatchWinner.None => 0

/-- A bet that is on the winning side and not yet claimed. -/
def isUnclaimedWinner (pool : MatchPool) (b : Bet) : Bool :=
  b.is_winner pool.winner && !b.claimed

/-- Number of listed unclaimed winning bets. -/
def countUW (pool : MatchPool) (l : List Bet) : Nat :=
  l.countP (isUnclaimedWinner pool)

/-- The fee-free payout `floor(total_pool * amount / winning_side_total)`:
an upper bound of the payout at every fee rate. -/
def maxPayout (pool : MatchPool) (b : Bet) : Nat :=
  (pool.side_a_total + pool.side_b_total) * b.amount / winSideTotal pool

/-- The no-winners refund `floor(amount * (10000 - fee_bps) / 10000)` at the
match's snapshotted rate. -/
def rfdNW (pool : MatchPool) (b : Bet) : Nat :=
  b.amount * (10000 - pool.fee_bps) / 10000

/-- The platform fee `floor(total_pool * fee_bps / 10000)` at the match's
snapshotted rate. -/
def feeSnap (pool : MatchPool) : Nat :=
  (pool.side_a_total + pool.side_b_total) * pool.fee_bps / 10000

/-- The amount `claim_payout` would transfer right now for bet `b`, at the
live configuration rate `fee_bps` (including the `as u64` narrowing). -/
def liveClaimAmount (pool : MatchPool) (fee_bps : Nat) (b : Bet) : Nat :=
  let total_pool := pool.side_a_total + pool.side_b_total
  (total_pool - total_pool * fee_bps / 10000) * b.amount
    / winSideTotal pool % U64LIMIT

/-- The outstanding obligations against a match's vault:
* on a resolved match whose resolution saw a winning side with zero bets,
  the no-winners refunds of all still-open bets;
* on a resolved match with winning bets, the live-rate payouts of all
  unclaimed winning bets;
* on a cancelled match, the full stakes of all still-open bets. -/
def obligations (config : PlatformConfig) (ms : MatchState) : Nat :=
  match ms.pool.status with
  | MatchStatus.Resolved =>
    if winSideBetCount ms.pool = 0 then sumBy (rfdNW ms.pool) ms.bets
    else sumBy (fun b => if isUnclaimedWinner ms.pool b
                         then liveClaimAmount ms.pool config.fee_bps b
                         else 0) ms.bets
  | MatchStatus.Cancelled => sumAmt ms.bets
  | _ => 0

/-- The inductive solvency bound on the vault: obligations plus, while the
match is live, the whole pooled stake, and on a no-winners match the
not-yet-withdrawn platform fee. -/
def strongBound (ms : MatchState) : Nat :=
  match ms.pool.status with
  | MatchStatus.Open => ms.pool.side_a_total + ms.pool.side_b_total
  | MatchStatus.Locked => ms.pool.side_a_total + ms.pool.side_b_total
  | MatchStatus.Cancelled => sumAmt ms.bets
  | MatchStatus.Resolved =>
    if winSideBetCount ms.pool = 0 then
      sumBy (rfdNW ms.pool) ms.bets +
        (if ms.pool.fees_withdrawn then 0 else feeSnap ms.pool)
    else
      sumBy (fun b => if isUnclaimedWinner ms.pool b
                      then maxPayout ms.pool b else 0) ms.bets

/-! ## The inductive invariant -/

/-- Facts holding while the match is Open or Locked: funds have only
flowed in, nothing is claimed, the recorded totals and counts are exactly
the sums over the open bets. -/
def PreResolutionInv (ms : MatchState) : Prop :=
  ms.pool.winner = MatchWinner.None ∧
  ms.pool.winning_bet_count = 0 ∧
  ms.pool.fees_withdrawn = false ∧
  (∀ b ∈ ms.bets, b.claimed = false) ∧
  ms.pool.side_a_total = sumSide BetSide.SideA ms.bets ∧
  ms.pool.side_b_total = sumSide BetSide.SideB ms.bets ∧
  ms.pool.side_a_bet_count = countSide BetSide.SideA ms.bets ∧
  ms.pool.side_b_bet_count = countSide BetSide.SideB ms.bets

/-- Facts holding once the match is Resolved. -/
def ResolvedInv (ms : MatchState) : Prop :=
  ms.pool.winner ≠ MatchWinner.None ∧
  ms.pool.fee_bps ≤ MAX_FEE_BPS ∧
  (winSideBetCount ms.pool = 0 →
    ∀ b ∈ ms.bets, b.is_winner ms.pool.winner = false) ∧
  (winSideBetCount ms.pool ≠ 0 →
    0 < winSideTotal ms.pool ∧
    ms.pool.winning_bet_count = countUW ms.pool ms.bets)

/-- The per-match inductive invariant. -/
structure MatchInv (ms : MatchState) : Prop where
  distinct : ms.bets.Pairwise (fun x y => x.bettor ≠ y.bettor)
  amountsPos : ∀ b ∈ ms.bets, 0 < b.amount
  betCountEq : ms.pool.bet_count = ms.bets.length
  minBetZero : ms.pool.min_bet = 0
  windowZero : ms.pool.betting_window = 0
  vaultLt : ms.vault < U64LIMIT
  totalALt : ms.pool.side_a_total < U64LIMIT
  totalBLt : ms.pool.side_b_total < U64LIMIT
  preInv : ms.pool.status = MatchStatus.Open ∨
           ms.pool.status = MatchStatus.Locked → PreResolutionInv ms
  resInv : ms.pool.status = MatchStatus.Resolved → ResolvedInv ms
  vaultGe : strongBound ms ≤ ms.vault

/-- The world-level inductive invariant. -/
def WorldInv (w : World) : Prop :=
  w.config.fee_bps ≤ MAX_FEE_BPS ∧
  ∀ ms, w.matchSt = some ms → MatchInv ms

deriving instance DecidableEq for Except

/-! ## Concrete scenario states (used to instantiate the theorems) -/

instance : Inhabited MatchPool :=
  ⟨{ fighter_a := 0, fighter_b := 0, side_a_total := 0, side_b_total := 0,
     side_a_bet_count := 0, side_b_bet_count := 0, winning_bet_count := 0,
     bet_count := 0, status := MatchStatus.Open, winner := MatchWinner.None,
     oracle := 0, creator := 0, created_at := 0, lock_timestamp := 0,
     resolve_timestamp := 0, cancel_timestamp := 0, min_bet := 0,
     betting_window := 0, fee_bps := 0, fees_withdrawn := false }⟩

instance : Inhabited MatchState := ⟨{ pool := default, bets := [], vault := 0 }⟩

/-- Extract the success state of a handler invocation known to succeed. -/
def exOk (x : Except RawlError MatchState) : MatchState :=
  match x with
  | Except.ok s => s
  | Except.error _ => default

/-- Scenario A: fee 300 bps, one bet of 1 SOL on side A, resolved for A. -/
def cfgA : PlatformConfig :=
  { authority := 1, oracle := 2, fee_bps := 300, treasury := 3,
    paused := false, match_timeout := 1800 }

def sA1 : MatchState := exOk (createMatch cfgA 7 8 9 0 0)

def sA2 : MatchState := exOk (placeBet sA1 10 0 1000000000 0)

def sA3 : MatchState := exOk (lockMatch sA2 0)

def sA5 : MatchState := exOk (resolveMatch sA3 cfgA 0 0)

def sA6 : MatchState := exOk (claimPayout sA5 cfgA 10)

def sA7 : MatchState := exOk (withdrawFees sA6 2592000)

/-- Scenario B: fee 1000 bps (the maximum), bets of 100 on side A and 10 on
side B, resolved for A, the winning bet claimed. -/
def cfgB : PlatformConfig :=
  { authority := 1, oracle := 2, fee_bps := 1000, treasury := 3,
    paused := false, match_timeout := 1800 }

def sB1 : MatchState := exOk (createMatch cfgB 7 8 9 0 0)

def sB2 : MatchState := exOk (placeBet sB1 1 0 100 0)

def sB3 : MatchState := exOk (placeBet sB2 2 1 10 0)

def sB4 : MatchState := exOk (lockMatch sB3 0)

def sB5 : MatchState := exOk (resolveMatch sB4 cfgB 0 0)

def sB6 : MatchState := exOk (claimPayout sB5 cfgB 1)

def sB7 : MatchState := exOk (refundNoWinners sB6 2)

/-- A hand-written state whose vault is empty although an unclaimed winning
bet of 100 is outstanding (vault 0 < payout 100). -/
def c4Cfg : PlatformConfig :=
  { authority := 1, oracle := 2, fee_bps := 0, treasury := 3,
    paused := false, match_timeout := 1800 }

def c4St : MatchState :=
  { pool :=
      { fighter_a := 7, fighter_b := 8, side_a_total := 100,
        side_b_total := 0, side_a_bet_count := 1, side_b_bet_count := 0,
        winning_bet_count := 1, bet_count := 1,
        status := MatchStatus.Resolved, winner := MatchWinner.SideA,
        oracle := 2, creator := 9, created_at := 0, lock_timestamp := 0,
        resolve_timestamp := 0, cancel_timestamp := 0, min_bet := 0,
        betting_window := 0, fee_bps := 0, fees_withdrawn := false },
    bets := [{ bettor := 1, side := BetSide.SideA, amount := 100,
               claimed := false }],
    vault := 0 }

/-! ## List bookkeeping lemmas -/

theorem map_eq_self {α : Type} {f : α → α} {l : List α}
    (h : ∀ y ∈ l, f y = y) : l.map f = l := by
  induction l with
  | nil => rfl
  | cons x xs ih =>
    simp only [List.map, h x (by simp), List.cons.injEq, true_and]
    exact ih (fun y hy => h y (by simp [hy]))

theorem findBet_none {l : List Bet} {who : Nat} (h : findBet l who = none) :
    ∀ x ∈ l, x.bettor ≠ who := by
  intro x hx
  have := List.find?_eq_none.mp h x hx
  simpa using this

/-- With pairwise-distinct bettors, a successful `findBet` splits the list
into a prefix, the found bet, and a suffix, and describes `removeBet` and
`setClaimed` in those terms. -/
theorem findBet_decomp {l : List Bet} {who : Nat} {b : Bet}
    (hd : l.Pairwise (fun x y => x.bettor ≠ y.bettor))
    (hf : findBet l who = some b) :
    b.bettor = who ∧ ∃ l1 l2, l = l1 ++ b :: l2 ∧
      removeBet l who = l1 ++ l2 ∧
      setClaimed l who = l1 ++ ({ b with claimed := true } :: l2) ∧
      (∀ x ∈ l1, x.bettor ≠ who) ∧ (∀ x ∈ l2, x.bettor ≠ who) := by
  induction l with
  | nil => simp [findBet] at hf
  | cons x xs ih =>
    rcases List.pairwise_cons.mp hd with ⟨hhead, htail⟩
    by_cases hx : x.bettor = who
    · have hfx : findBet (x :: xs) who = some x :=
        List.find?_cons_of_pos _ (by simp [hx])
      rw [hfx] at hf
      obtain rfl : x = b := by injection hf
      have hnot : ∀ y ∈ xs, y.bettor ≠ who := by
        intro y hy
        have := hhead y hy
        omega
      refine ⟨hx, [], xs, by simp, ?_, ?_, by simp, hnot⟩
      · simp only [removeBet, List.filter]
        rw [show (x.bettor != who) = false by simp [hx]]
        simp only [List.nil_append]
        apply List.filter_eq_self.mpr
        intro y hy
        simp [hnot y hy]
      · simp only [setClaimed, List.map]
        rw [show (x.bettor == who) = true by simp [hx]]
        simp only [List.nil_append, List.cons.injEq]
        refine ⟨by simp, map_eq_self ?_⟩
        intro y hy
        simp [hnot y hy]
    · have hfx : findBet (x :: xs) who = findBet xs who :=
        List.find?_cons_of_neg _ (by simp [hx])
      rw [hfx] at hf
      obtain ⟨hb, l1, l2, hl, hrem, hset, h1, h2⟩ := ih htail hf
      refine ⟨hb, x :: l1, l2, by simp [hl], ?_, ?_, ?_, h2⟩
      · simp only [removeBet, List.filter]
        rw [show (x.bettor != who) = true by simp [hx]]
        simpa [removeBet] using hrem
      · simp only [setClaimed, List.map]
        rw [show (x.bettor == who) = false by simp [hx]]
        simpa [setClaimed] using hset
      · intro y hy
        rcases List.mem_cons.mp hy with rfl | hy'
        · exact hx
        · exact h1 y hy'

theorem sumBy_append (f : Bet → Nat) (l1 l2 : List Bet) :
    sumBy f (l1 ++ l2) = sumBy f l1 + sumBy f l2 := by
  simp [sumBy]

theorem sumBy_cons (f : Bet → Nat) (b : Bet) (l : List Bet) :
    sumBy f (b :: l) = f b + sumBy f l := by
  simp [sumBy]

/-- Pairwise-distinct bettors survive `setClaimed` (it preserves keys). -/
theorem pairwise_setClaimed {l : List Bet} {who : Nat}
    (hd : l.Pairwise (fun x y => x.bettor ≠ y.bettor)) :
    (setClaimed l who).Pairwise (fun x y => x.bettor ≠ y.bettor) := by
  rw [setClaimed, List.pairwise_map]
  refine hd.imp_of_mem ?_
  intro a b _ _ hab
  by_cases ha : a.bettor = who <;> by_cases hb : b.bettor = who <;>
    simp [ha, hb, hab] <;> omega

/-- Pairwise-distinct bettors survive `removeBet`. -/
theorem pairwise_removeBet {l : List Bet} {who : Nat}
    (hd : l.Pairwise (fun x y => x.bettor ≠ y.bettor)) :
    (removeBet l who).Pairwise (fun x y => x.bettor ≠ y.bettor) :=
  hd.filter _

theorem mem_removeBet {l : List Bet} {who : Nat} {x : Bet}
    (h : x ∈ removeBet l who) : x ∈ l :=
  List.mem_of_mem_filter h

/-! ## Arithmetic lemmas for the payout engine -/

theorem div_add_div_le (a b d : Nat) : a / d + b / d ≤ (a + b) / d := by
  rcases Nat.eq_zero_or_pos d with rfl | hd
  · simp
  · rw [Nat.le_div_iff_mul_le hd, Nat.add_mul]
    exact Nat.add_le_add (Nat.div_mul_le_self a d) (Nat.div_mul_le_self b d)

/-- Floor division distributes sub-additively over a bet-list sum. -/
theorem sumBy_div_le (h : Bet → Nat) (d : Nat) (l : List Bet) :
    sumBy (fun b => h b / d) l ≤ sumBy h l / d := by
  induction l with
  | nil => simp [sumBy]
  | cons x xs ih =>
    rw [sumBy_cons, sumBy_cons]
    calc h x / d + sumBy (fun b => h b / d) xs
        ≤ h x / d + sumBy h xs / d := Nat.add_le_add_left ih _
      _ ≤ (h x + sumBy h xs) / d := div_add_div_le _ _ _

theorem sumBy_congr {f g : Bet → Nat} {l : List Bet}
    (h : ∀ b ∈ l, f b = g b) : sumBy f l = sumBy g l := by
  induction l with
  | nil => rfl
  | cons x xs ih =>
    rw [sumBy_cons, sumBy_cons, h x (by simp),
        ih (fun b hb => h b (by simp [hb]))]

theorem sumBy_add_distrib (f g : Bet → Nat) (l : List Bet) :
    sumBy (fun b => f b + g b) l = sumBy f l + sumBy g l := by
  induction l with
  | nil => rfl
  | cons x xs ih => rw [sumBy_cons, sumBy_cons, sumBy_cons, ih]; ring

theorem sumBy_mul_left (c : Nat) (f : Bet → Nat) (l : List Bet) :
    sumBy (fun b => c * f b) l = c * sumBy f l := by
  induction l with
  | nil => simp [sumBy]
  | cons x xs ih => rw [sumBy_cons, sumBy_cons, ih]; ring

theorem sumBy_le_sumBy {f g : Bet → Nat} {l : List Bet}
    (h : ∀ b ∈ l, f b ≤ g b) : sumBy f l ≤ sumBy g l := by
  induction l with
  | nil => exact Nat.le_refl _
  | cons x xs ih =>
    rw [sumBy_cons, sumBy_cons]
    exact Nat.add_le_add (h x (by simp)) (ih (fun b hb => h b (by simp [hb])))

theorem le_sumBy_of_mem {f : Bet → Nat} {l : List Bet} {b : Bet}
    (h : b ∈ l) : f b ≤ sumBy f l := by
  induction l with
  | nil => simp at h
  | cons x xs ih =>
    rw [sumBy_cons]
    rcases List.mem_cons.mp h with rfl | h'
    · exact Nat.le_add_right _ _
    · exact Nat.le_add_left _ _ |>.trans (Nat.add_le_add_left (ih h') _)

/-- Every stake counts on exactly one side. -/
theorem sumAmt_sides (l : List Bet) :
    sumAmt l = sumSide BetSide.SideA l + sumSide BetSide.SideB l := by
  rw [sumAmt, sumSide, sumSide, ← sumBy_add_distrib]
  refine sumBy_congr ?_
  intro b _
  cases hb : b.side <;> simp

theorem countP_ext {p q : Bet → Bool} {l : List Bet}
    (h : ∀ x ∈ l, p x = q x) : l.countP p = l.countP q := by
  induction l with
  | nil => rfl
  | cons x xs ih =>
    rw [List.countP_cons, List.countP_cons, h x (by simp),
        ih (fun y hy => h y (by simp [hy]))]

/-- A side with a nonzero bet count has a positive stake total (bet
amounts are positive and the side total is their sum). -/
theorem sumSide_pos {l : List Bet} {s : BetSide}
    (hpos : ∀ b ∈ l, 0 < b.amount) (hc : countSide s l ≠ 0) :
    0 < sumSide s l := by
  rw [countSide] at hc
  rcases List.countP_pos_iff.mp (Nat.pos_of_ne_zero hc) with ⟨b, hb, hs⟩
  have hbs : b.side = s := by simpa using hs
  have hle : (if b.side = s then b.amount else 0) ≤ sumSide s l :=
    le_sumBy_of_mem (f := fun b => if b.side = s then b.amount else 0) hb
  rw [if_pos hbs] at hle
  exact Nat.lt_of_lt_of_le (hpos b hb) hle

/-- No-winners accounting: the fee-haircut refunds of all bets plus the
snapshot fee never exceed the pooled total. -/
theorem nowinners_refunds_fee_le {bets : List Bet} {T s : Nat}
    (hs : s ≤ 10000) (hsum : sumAmt bets = T) :
    sumBy (fun b => b.amount * (10000 - s) / 10000) bets + T * s / 10000
      ≤ T := by
  have h1 : sumBy (fun b => b.amount * (10000 - s) / 10000) bets
      ≤ T * (10000 - s) / 10000 := by
    calc sumBy (fun b => b.amount * (10000 - s) / 10000) bets
        ≤ sumBy (fun b => b.amount * (10000 - s)) bets / 10000 :=
          sumBy_div_le _ _ _
      _ = (10000 - s) * sumAmt bets / 10000 := by
          rw [show (fun b : Bet => b.amount * (10000 - s))
                = fun b : Bet => (10000 - s) * b.amount from
              funext (fun b => Nat.mul_comm _ _), sumBy_mul_left]
          rfl
      _ = T * (10000 - s) / 10000 := by rw [hsum, Nat.mul_comm]
  calc sumBy (fun b => b.amount * (10000 - s) / 10000) bets + T * s / 10000
      ≤ T * (10000 - s) / 10000 + T * s / 10000 :=
        Nat.add_le_add_right h1 _
    _ ≤ (T * (10000 - s) + T * s) / 10000 := div_add_div_le _ _ _
    _ = T * 10000 / 10000 := by
        rw [← Nat.mul_add, show 10000 - s + s = 10000 from by omega]
    _ = T := Nat.mul_div_cancel _ (by norm_num)

/-- Winner accounting: the fee-free proportional payouts of all bets on the
winning side never exceed the pooled total. -/
theorem winner_payouts_le {bets : List Bet} {s : BetSide} {T W : Nat}
    (hW : 0 < W) (hsum : sumSide s bets = W) :
    sumBy (fun b => if b.side = s then T * b.amount / W else 0) bets
      ≤ T := by
  have h1 : sumBy (fun b => if b.side = s then T * b.amount / W else 0) bets
      = sumBy (fun b =>
          (if b.side = s then T * b.amount else 0) / W) bets := by
    refine sumBy_congr ?_
    intro b _
    by_cases hb : b.side = s
    · rw [if_pos hb, if_pos hb]
    · rw [if_neg hb, if_neg hb, Nat.zero_div]
  have h2 : sumBy (fun b => if b.side = s then T * b.amount else 0) bets
      = T * W := by
    rw [show (fun b : Bet => if b.side = s then T * b.amount else 0)
          = fun b : Bet => T * (if b.side = s then b.amount else 0) from
        funext ?_, sumBy_mul_left]
    · rw [show sumBy (fun b => if b.side = s then b.amount else 0) bets = W
            from hsum]
    · intro b
      by_cases hb : b.side = s
      · rw [if_pos hb, if_pos hb]
      · rw [if_neg hb, if_neg hb, Nat.mul_zero]
  calc sumBy (fun b => if b.side = s then T * b.amount / W else 0) bets
      = sumBy (fun b => (if b.side = s then T * b.amount else 0) / W) bets :=
        h1
    _ ≤ sumBy (fun b => if b.side = s then T * b.amount else 0) bets / W :=
        sumBy_div_le _ _ _
    _ = T * W / W := by rw [h2]
    _ = T := Nat.mul_div_cancel _ hW

/-- Wrapping u64 subtraction coincides with exact subtraction when the
debit is covered and the balance is in range. -/
theorem wrapSub_eq {v p : Nat} (h1 : p ≤ v) (h2 : v < U64LIMIT) :
    (v + U64LIMIT - p) % U64LIMIT = v - p := by
  unfold U64LIMIT at *
  omega

/-- Whatever `claim_payout` computes is at most the fee-free proportional
payout (the fee only shrinks the distributable pool). -/
theorem claimPayoutCalc_le_maxPayout {pool : MatchPool}
    {fee_bps amount payout : Nat}
    (h : claimPayoutCalc pool fee_bps amount = Except.ok payout) :
    payout ≤ (pool.side_a_total + pool.side_b_total) * amount
      / winSideTotal pool := by
  unfold claimPayoutCalc at h
  dsimp only at h
  split at h
  · exact Except.noConfusion h
  split at h
  · exact Except.noConfusion h
  split at h
  · exact Except.noConfusion h
  split at h
  case h_1 => exact Except.noConfusion h
  case h_2 hwin =>
    split at h
    · exact Except.noConfusion h
    split at h
    · exact Except.noConfusion h
    obtain rfl : _ = payout := (Except.ok.injEq _ _).mp h
    rw [winSideTotal, hwin]
    calc (pool.side_a_total + pool.side_b_total -
            (pool.side_a_total + pool.side_b_total) * fee_bps / 10000)
            * amount / pool.side_a_total % U64LIMIT
        ≤ (pool.side_a_total + pool.side_b_total -
            (pool.side_a_total + pool.side_b_total) * fee_bps / 10000)
            * amount / pool.side_a_total := Nat.mod_le _ _
      _ ≤ (pool.side_a_total + pool.side_b_total) * amount
            / pool.side_a_total :=
          Nat.div_le_div_right
            (Nat.mul_le_mul_right _ (Nat.sub_le _ _))
  case h_3 hwin =>
    split at h
    · exact Except.noConfusion h
    split at h
    · exact Except.noConfusion h
    obtain rfl : _ = payout := (Except.ok.injEq _ _).mp h
    rw [winSideTotal, hwin]
    calc (pool.side_a_total + pool.side_b_total -
            (pool.side_a_total + pool.side_b_total) * fee_bps / 10000)
            * amount / pool.side_b_total % U64LIMIT
        ≤ (pool.side_a_total + pool.side_b_total -
            (pool.side_a_total + pool.side_b_total) * fee_bps / 10000)
            * amount / pool.side_b_total := Nat.mod_le _ _
      _ ≤ (pool.side_a_total + pool.side_b_total) * amount
            / pool.side_b_total :=
          Nat.div_le_div_right
            (Nat.mul_le_mul_right _ (Nat.sub_le _ _))

theorem winSideBetCount_congr {p q : MatchPool} (hw : p.winner = q.winner)
    (ha : p.side_a_bet_count = q.side_a_bet_count)
    (hb : p.side_b_bet_count = q.side_b_bet_count) :
    winSideBetCount p = winSideBetCount q := by
  cases hq : q.winner <;> simp [winSideBetCount, hw, hq, ha, hb]

theorem winSideTotal_congr {p q : MatchPool} (hw : p.winner = q.winner)
    (ha : p.side_a_total = q.side_a_total)
    (hb : p.side_b_total = q.side_b_total) :
    winSideTotal p = winSideTotal q := by
  cases hq : q.winner <;> simp [winSideTotal, hw, hq, ha, hb]

theorem isUnclaimedWinner_congr {p q : MatchPool} (hw : p.winner = q.winner)
    (b : Bet) : isUnclaimedWinner p b = isUnclaimedWinner q b := by
  simp [isUnclaimedWinner, hw]

theorem maxPayout_congr {p q : MatchPool} (hw : p.winner = q.winner)
    (ha : p.side_a_total = q.side_a_total)
    (hb : p.side_b_total = q.side_b_total) (b : Bet) :
    maxPayout p b = maxPayout q b := by
  rw [maxPayout, maxPayout, ha, hb, winSideTotal_congr hw ha hb]

theorem rfdNW_congr {p q : MatchPool} (hf : p.fee_bps = q.fee_bps) (b : Bet) :
    rfdNW p b = rfdNW q b := by
  rw [rfdNW, rfdNW, hf]

theorem feeSnap_congr {p q : MatchPool} (ha : p.side_a_total = q.side_a_total)
    (hb : p.side_b_total = q.side_b_total) (hf : p.fee_bps = q.fee_bps) :
    feeSnap p = feeSnap q := by
  rw [feeSnap, feeSnap, ha, hb, hf]

theorem sumBy_if_zero {p : Bet → Bool} {f : Bet → Nat} {l : List Bet}
    (h : l.countP p = 0) :
    sumBy (fun b => if p b then f b else 0) l = 0 := by
  have hz : sumBy (fun b => if p b then f b else 0) l
      = sumBy (fun _ => 0) l :=
    sumBy_congr (fun b hb => if_neg (by
      have := List.countP_eq_zero.mp h b hb
      simpa using this))
  rw [hz]
  simp [sumBy]

/-- What `refund_no_winners` computes on success. -/
theorem refundNoWinnersCalc_ok {pool : MatchPool} {amount r : Nat}
    (h : refundNoWinnersCalc pool amount = Except.ok r) :
    r = amount * (10000 - pool.fee_bps) / 10000 := by
  unfold refundNoWinnersCalc at h
  split at h
  · exact Except.noConfusion h
  split at h
  · exact Except.noConfusion h
  split at h
  · exact Except.noConfusion h
  exact ((Except.ok.injEq _ _).mp h).symm

/-- What `withdraw_fees` computes on success. -/
theorem withdrawFeesCalc_ok {pool : MatchPool} {r : Nat}
    (h : withdrawFeesCalc pool = Except.ok r) : r = feeSnap pool := by
  unfold withdrawFeesCalc at h
  dsimp only at h
  split at h
  · exact Except.noConfusion h
  split at h
  · exact Except.noConfusion h
  split at h
  · exact Except.noConfusion h
  exact ((Except.ok.injEq _ _).mp h).symm

/-- The sweep payout is also bounded by the fee-free proportional payout. -/
theorem sweepPayoutCalc_le_maxPayout {pool : MatchPool} {amount payout : Nat}
    (h : sweepPayoutCalc pool amount = Except.ok payout) :
    payout ≤ (pool.side_a_total + pool.side_b_total) * amount
      / winSideTotal pool := by
  unfold sweepPayoutCalc at h
  dsimp only at h
  split at h
  · exact Except.noConfusion h
  split at h
  · exact Except.noConfusion h
  split at h
  · exact Except.noConfusion h
  split at h
  case h_1 => exact Except.noConfusion h
  case h_2 hwin =>
    split at h
    · exact Except.noConfusion h
    split at h
    · exact Except.noConfusion h
    split at h
    · exact Except.noConfusion h
    obtain rfl : _ = payout := (Except.ok.injEq _ _).mp h
    rw [winSideTotal, hwin]
    exact Nat.div_le_div_right (Nat.mul_le_mul_right _ (Nat.sub_le _ _))
  case h_3 hwin =>
    split at h
    · exact Except.noConfusion h
    split at h
    · exact Except.noConfusion h
    split at h
    · exact Except.noConfusion h
    obtain rfl : _ = payout := (Except.ok.injEq _ _).mp h
    rw [winSideTotal, hwin]
    exact Nat.div_le_div_right (Nat.mul_le_mul_right _ (Nat.sub_le _ _))

/-! ## Invariant preservation, one lemma per instruction -/

theorem matchInv_create {config : PlatformConfig}
    {fa fb creator rentMin : Nat} {now : Int} {ms : MatchState}
    (hrent : rentMin < U64LIMIT)
    (h : createMatch config fa fb creator rentMin now = Except.ok ms) :
    MatchInv ms := by
  unfold createMatch at h
  split at h
  · exact Except.noConfusion h
  · obtain rfl := (Except.ok.injEq _ _).mp h
    refine ⟨by simp, by simp, by simp, rfl, rfl, hrent,
            by simp [U64LIMIT], by simp [U64LIMIT], ?_, by simp, ?_⟩
    · intro _
      refine ⟨rfl, rfl, rfl, by simp, ?_, ?_, ?_, ?_⟩ <;>
        simp [sumSide, countSide, sumBy]
    · simp [strongBound]

theorem matchInv_lock {st st' : MatchState} {now : Int}
    (hI : MatchInv st) (h : lockMatch st now = Except.ok st') :
    MatchInv st' := by
  unfold lockMatch at h
  split at h
  · exact Except.noConfusion h
  · obtain rfl := (Except.ok.injEq _ _).mp h
    rename_i hopen
    rw [Decidable.not_not] at hopen
    have hpre := hI.preInv (Or.inl hopen)
    refine ⟨hI.distinct, hI.amountsPos, hI.betCountEq, hI.minBetZero,
            hI.windowZero, hI.vaultLt, hI.totalALt, hI.totalBLt, ?_, ?_, ?_⟩
    · intro _
      exact ⟨hpre.1, hpre.2.1, hpre.2.2.1, hpre.2.2.2.1, hpre.2.2.2.2.1,
             hpre.2.2.2.2.2.1, hpre.2.2.2.2.2.2.1, hpre.2.2.2.2.2.2.2⟩
    · intro hc; simp at hc
    · have := hI.vaultGe
      simpa [strongBound, hopen] using this

theorem matchInv_cancel {st st' : MatchState} {now : Int}
    (hI : MatchInv st) (h : cancelMatch st now = Except.ok st') :
    MatchInv st' := by
  unfold cancelMatch at h
  split at h
  · exact Except.noConfusion h
  · obtain rfl := (Except.ok.injEq _ _).mp h
    rename_i hol
    rw [Decidable.not_not] at hol
    have hpre := hI.preInv hol
    refine ⟨hI.distinct, hI.amountsPos, hI.betCountEq, hI.minBetZero,
            hI.windowZero, hI.vaultLt, hI.totalALt, hI.totalBLt, ?_, ?_, ?_⟩
    · intro hc
      rcases hc with hc | hc <;> simp at hc
    · intro hc; simp at hc
    · have hvault := hI.vaultGe
      have hA := hpre.2.2.2.2.1
      have hB := hpre.2.2.2.2.2.1
      have hbound : strongBound st =
          st.pool.side_a_total + st.pool.side_b_total := by
        rcases hol with hc | hc <;> simp [strongBound, hc]
      rw [hbound] at hvault
      simpa [strongBound, sumAmt_sides, ← hA, ← hB] using hvault

theorem matchInv_timeout {st st' : MatchState} {config : PlatformConfig}
    {now : Int} (hI : MatchInv st)
    (h : timeoutMatch st config now = Except.ok st') : MatchInv st' := by
  unfold timeoutMatch at h
  split at h
  · exact Except.noConfusion h
  · split at h
    · exact Except.noConfusion h
    · obtain rfl := (Except.ok.injEq _ _).mp h
      rename_i hlocked _
      rw [Decidable.not_not] at hlocked
      have hpre := hI.preInv (Or.inr hlocked)
      refine ⟨hI.distinct, hI.amountsPos, hI.betCountEq, hI.minBetZero,
              hI.windowZero, hI.vaultLt, hI.totalALt, hI.totalBLt, ?_, ?_, ?_⟩
      · intro hc
        rcases hc with hc | hc <;> simp at hc
      · intro hc; simp at hc
      · have hvault := hI.vaultGe
        have hA := hpre.2.2.2.2.1
        have hB := hpre.2.2.2.2.2.1
        have hbound : strongBound st =
            st.pool.side_a_total + st.pool.side_b_total := by
          simp [strongBound, hlocked]
        rw [hbound] at hvault
        simpa [strongBound, sumAmt_sides, ← hA, ← hB] using hvault

set_option maxHeartbeats 3200000 in
theorem matchInv_claim {st st' : MatchState} {config : PlatformConfig}
    {who : Nat} (hI : MatchInv st)
    (h : claimPayout st config who = Except.ok st') : MatchInv st' := by
  unfold claimPayout at h
  split at h
  case h_1 => exact Except.noConfusion h
  case h_2 bet hfb =>
    split at h
    · exact Except.noConfusion h
    split at h
    · exact Except.noConfusion h
    split at h
    · exact Except.noConfusion h
    rename_i hres hncl hwin
    rw [Decidable.not_not] at hres
    rw [Decidable.not_not] at hwin
    split at h
    case h_1 => exact Except.noConfusion h
    case h_2 payout hcalc =>
      have hinj := (Except.ok.injEq _ _).mp h
      obtain ⟨hbw, l1, l2, hl, hrem, hset, hl1, hl2⟩ :=
        findBet_decomp hI.distinct hfb
      have hbet_mem : bet ∈ st.bets := by rw [hl]; simp
      obtain ⟨hwne, hfee, harm0, harm1⟩ := hI.resInv hres
      have hnclf : bet.claimed = false := by
        cases hc : bet.claimed
        · rfl
        · exact absurd hc hncl
      have hUW : isUnclaimedWinner st.pool bet = true := by
        simp [isUnclaimedWinner, hwin, hnclf]
      have hwsc : winSideBetCount st.pool ≠ 0 := by
        intro h0
        have hfalse := harm0 h0 bet hbet_mem
        rw [hwin] at hfalse
        exact Bool.noConfusion hfalse
      obtain ⟨hWpos, hwbc⟩ := harm1 hwsc
      have hmax : payout ≤ maxPayout st.pool bet :=
        claimPayoutCalc_le_maxPayout hcalc
      have hvault := hI.vaultGe
      rw [show strongBound st = sumBy (fun b =>
            if isUnclaimedWinner st.pool b then maxPayout st.pool b else 0)
            st.bets from by simp [strongBound, hres, if_neg hwsc]] at hvault
      rw [hl, sumBy_append, sumBy_cons, if_pos hUW] at hvault
      have hple : payout ≤ st.vault := by
        have hmv : maxPayout st.pool bet ≤ st.vault := by omega
        exact le_trans hmax hmv
      -- component equalities of the post-state
      have hPw : st'.pool.winner = st.pool.winner := by rw [← hinj]
      have hPs : st'.pool.status = st.pool.status := by rw [← hinj]
      have hPa : st'.pool.side_a_total = st.pool.side_a_total := by rw [← hinj]
      have hPb : st'.pool.side_b_total = st.pool.side_b_total := by rw [← hinj]
      have hPca : st'.pool.side_a_bet_count = st.pool.side_a_bet_count := by
        rw [← hinj]
      have hPcb : st'.pool.side_b_bet_count = st.pool.side_b_bet_count := by
        rw [← hinj]
      have hPwbc : st'.pool.winning_bet_count
          = st.pool.winning_bet_count - 1 := by rw [← hinj]
      have hPbc : st'.pool.bet_count = st.pool.bet_count := by rw [← hinj]
      have hPmb : st'.pool.min_bet = st.pool.min_bet := by rw [← hinj]
      have hPbw : st'.pool.betting_window = st.pool.betting_window := by
        rw [← hinj]
      have hPfee : st'.pool.fee_bps = st.pool.fee_bps := by rw [← hinj]
      have hBets : st'.bets = setClaimed st.bets who := by rw [← hinj]
      have hVault : st'.vault = st.vault - payout := by
        rw [← hinj]
        exact wrapSub_eq hple hI.vaultLt
      have hWSC : winSideBetCount st'.pool = winSideBetCount st.pool :=
        winSideBetCount_congr hPw hPca hPcb
      have hup : isUnclaimedWinner st.pool { bet with claimed := true }
          = false := by simp [isUnclaimedWinner]
      refine ⟨?_, ?_, ?_, ?_, ?_, ?_, ?_, ?_, ?_, ?_, ?_⟩
      · rw [hBets]; exact pairwise_setClaimed hI.distinct
      · intro b hb
        rw [hBets, hset] at hb
        rcases List.mem_append.mp hb with hb | hb
        · exact hI.amountsPos b (by rw [hl]; exact List.mem_append_left _ hb)
        · rcases List.mem_cons.mp hb with rfl | hb
          · exact hI.amountsPos bet hbet_mem
          · exact hI.amountsPos b
              (by rw [hl]; exact List.mem_append_right _ (by simp [hb]))
      · rw [hPbc, hBets]
        simp [setClaimed, hI.betCountEq]
      · rw [hPmb]; exact hI.minBetZero
      · rw [hPbw]; exact hI.windowZero
      · rw [hVault]
        exact lt_of_le_of_lt (Nat.sub_le _ _) hI.vaultLt
      · rw [hPa]; exact hI.totalALt
      · rw [hPb]; exact hI.totalBLt
      · intro hc
        rw [hPs, hres] at hc
        rcases hc with hc | hc <;> exact MatchStatus.noConfusion hc
      · intro _
        refine ⟨by rw [hPw]; exact hwne, by rw [hPfee]; exact hfee, ?_, ?_⟩
        · intro h0
          rw [hWSC] at h0
          exact absurd h0 hwsc
        · intro _
          constructor
          · rw [winSideTotal_congr hPw hPa hPb]
            exact hWpos
          · rw [hPwbc, hwbc]
            have e1 : countUW st'.pool st'.bets
                = (setClaimed st.bets who).countP
                    (isUnclaimedWinner st.pool) := by
              rw [hBets, countUW]
              exact countP_ext (fun x _ => isUnclaimedWinner_congr hPw x)
            rw [e1, hset, List.countP_append, List.countP_cons, hup]
            rw [countUW, hl, List.countP_append, List.countP_cons,
                if_pos hUW]
            simp only [Bool.false_eq_true, if_false]
            omega
      · have hSB : strongBound st' = sumBy (fun b =>
            if isUnclaimedWinner st.pool b then maxPayout st.pool b else 0)
            st'.bets := by
          rw [strongBound]
          rw [show st'.pool.status = MatchStatus.Resolved from
              hPs.trans hres]
          rw [hWSC, if_neg hwsc]
          refine sumBy_congr ?_
          intro b _
          rw [isUnclaimedWinner_congr hPw]
          rcases hiw : isUnclaimedWinner st.pool b with _ | _
          · simp
          · rw [if_pos (by rfl), if_pos (by rfl),
                maxPayout_congr hPw hPa hPb]
        rw [hSB, hBets, hset, sumBy_append, sumBy_cons, hup, hVault]
        simp only [Bool.false_eq_true, if_false]
        omega

set_option maxHeartbeats 3200000 in
theorem matchInv_refundNoWinners {st st' : MatchState} {who : Nat}
    (hI : MatchInv st)
    (h : refundNoWinners st who = Except.ok st') : MatchInv st' := by
  unfold refundNoWinners at h
  split at h
  case h_1 => exact Except.noConfusion h
  case h_2 bet hfb =>
    split at h
    · exact Except.noConfusion h
    split at h
    · exact Except.noConfusion h
    rename_i hres hwbc0
    rw [Decidable.not_not] at hres
    rw [Decidable.not_not] at hwbc0
    split at h
    case h_1 => exact Except.noConfusion h
    case h_2 refund hcalc =>
      split at h
      · exact Except.noConfusion h
      rename_i hbal
      rw [Decidable.not_not] at hbal
      have hinj := (Except.ok.injEq _ _).mp h
      obtain ⟨hbw, l1, l2, hl, hrem, hset, hl1, hl2⟩ :=
        findBet_decomp hI.distinct hfb
      have hbet_mem : bet ∈ st.bets := by rw [hl]; simp
      obtain ⟨hwne, hfee, harm0, harm1⟩ := hI.resInv hres
      have hrval : refund = rfdNW st.pool bet := refundNoWinnersCalc_ok hcalc
      have hPw : st'.pool.winner = st.pool.winner := by rw [← hinj]
      have hPs : st'.pool.status = st.pool.status := by rw [← hinj]
      have hPa : st'.pool.side_a_total = st.pool.side_a_total := by
        rw [← hinj]
      have hPb : st'.pool.side_b_total = st.pool.side_b_total := by
        rw [← hinj]
      have hPca : st'.pool.side_a_bet_count = st.pool.side_a_bet_count := by
        rw [← hinj]
      have hPcb : st'.pool.side_b_bet_count = st.pool.side_b_bet_count := by
        rw [← hinj]
      have hPwbc : st'.pool.winning_bet_count
          = st.pool.winning_bet_count := by rw [← hinj]
      have hPbc : st'.pool.bet_count = st.pool.bet_count - 1 := by
        rw [← hinj]
      have hPmb : st'.pool.min_bet = st.pool.min_bet := by rw [← hinj]
      have hPbw : st'.pool.betting_window = st.pool.betting_window := by
        rw [← hinj]
      have hPfee : st'.pool.fee_bps = st.pool.fee_bps := by rw [← hinj]
      have hPfw : st'.pool.fees_withdrawn = st.pool.fees_withdrawn := by
        rw [← hinj]
      have hBets : st'.bets = removeBet st.bets who := by rw [← hinj]
      have hVault : st'.vault = st.vault - refund := by rw [← hinj]
      have hWSC : winSideBetCount st'.pool = winSideBetCount st.pool :=
        winSideBetCount_congr hPw hPca hPcb
      have hlen : st.bets.length = l1.length + l2.length + 1 := by
        rw [hl]; simp only [List.length_append, List.length_cons]; omega
      refine ⟨?_, ?_, ?_, ?_, ?_, ?_, ?_, ?_, ?_, ?_, ?_⟩
      · rw [hBets]; exact pairwise_removeBet hI.distinct
      · intro b hb
        rw [hBets] at hb
        exact hI.amountsPos b (mem_removeBet hb)
      · rw [hPbc, hBets, hrem]
        have := hI.betCountEq
        simp only [List.length_append]
        omega
      · rw [hPmb]; exact hI.minBetZero
      · rw [hPbw]; exact hI.windowZero
      · rw [hVault]
        exact lt_of_le_of_lt (Nat.sub_le _ _) hI.vaultLt
      · rw [hPa]; exact hI.totalALt
      · rw [hPb]; exact hI.totalBLt
      · intro hc
        rw [hPs, hres] at hc
        rcases hc with hc | hc <;> exact MatchStatus.noConfusion hc
      · intro _
        refine ⟨by rw [hPw]; exact hwne, by rw [hPfee]; exact hfee, ?_, ?_⟩
        · intro h0 b hb
          rw [hWSC] at h0
          rw [hBets] at hb
          rw [hPw]
          exact harm0 h0 b (mem_removeBet hb)
        · intro hne
          rw [hWSC] at hne
          obtain ⟨hWpos, hwbc⟩ := harm1 hne
          constructor
          · rw [winSideTotal_congr hPw hPa hPb]
            exact hWpos
          · have hcnt : countUW st.pool st.bets = 0 := by
              rw [← hwbc]; exact hwbc0
            have e1 : countUW st'.pool st'.bets
                = (l1 ++ l2).countP (isUnclaimedWinner st.pool) := by
              rw [hBets, hrem, countUW]
              exact countP_ext (fun x _ => isUnclaimedWinner_congr hPw x)
            rw [countUW, hl, List.countP_append, List.countP_cons] at hcnt
            rw [hPwbc, hwbc0, e1, List.countP_append]
            omega
      · have hvault := hI.vaultGe
        by_cases hz : winSideBetCount st.pool = 0
        · rw [show strongBound st
              = sumBy (rfdNW st.pool) st.bets +
                (if st.pool.fees_withdrawn then 0 else feeSnap st.pool)
              from by simp [strongBound, hres, if_pos hz]] at hvault
          rw [hl, sumBy_append, sumBy_cons] at hvault
          rw [show strongBound st'
              = sumBy (rfdNW st.pool) (l1 ++ l2) +
                (if st.pool.fees_withdrawn then 0 else feeSnap st.pool)
              from by
            rw [strongBound]
            rw [show st'.pool.status = MatchStatus.Resolved from
                hPs.trans hres]
            rw [hWSC, if_pos hz, hPfw,
                feeSnap_congr hPa hPb hPfee, hBets, hrem]
            rw [show sumBy (rfdNW st'.pool) (l1 ++ l2)
                = sumBy (rfdNW st.pool) (l1 ++ l2) from
              sumBy_congr (fun b _ => rfdNW_congr hPfee b)]]
          rw [hVault, hrval, sumBy_append] at *
          omega
        · rw [show strongBound st' = 0 from by
            rw [strongBound]
            rw [show st'.pool.status = MatchStatus.Resolved from
                hPs.trans hres]
            rw [hWSC, if_neg hz]
            obtain ⟨-, hwbc⟩ := harm1 hz
            have hcnt : countUW st.pool st.bets = 0 := by
              rw [← hwbc]; exact hwbc0
            have hcnt2 : st'.bets.countP (isUnclaimedWinner st'.pool) = 0 := by
              rw [show st'.bets.countP (isUnclaimedWinner st'.pool)
                  = st'.bets.countP (isUnclaimedWinner st.pool) from
                countP_ext (fun x _ => isUnclaimedWinner_congr hPw x)]
              rw [hBets, hrem]
              rw [countUW, hl, List.countP_append, List.countP_cons] at hcnt
              rw [List.countP_append]
              omega
            have := sumBy_if_zero (f := fun b => maxPayout st'.pool b) hcnt2
            exact this]
          exact Nat.zero_le _

theorem matchInv_refundBet {st st' : MatchState} {who : Nat}
    (hI : MatchInv st)
    (h : refundBet st who = Except.ok st') : MatchInv st' := by
  unfold refundBet at h
  split at h
  case h_1 => exact Except.noConfusion h
  case h_2 bet hfb =>
    split at h
    · exact Except.noConfusion h
    rename_i hcan
    rw [Decidable.not_not] at hcan
    have hinj := (Except.ok.injEq _ _).mp h
    obtain ⟨hbw, l1, l2, hl, hrem, hset, hl1, hl2⟩ :=
      findBet_decomp hI.distinct hfb
    have hvault := hI.vaultGe
    rw [show strongBound st = sumAmt st.bets from by
        simp [strongBound, hcan]] at hvault
    rw [hl] at hvault
    rw [show sumAmt (l1 ++ bet :: l2)
        = sumAmt l1 + (bet.amount + sumAmt l2) from by
      rw [sumAmt, sumBy_append, sumBy_cons]; rfl] at hvault
    have hple : bet.amount ≤ st.vault := by omega
    have hPs : st'.pool.status = st.pool.status := by rw [← hinj]
    have hPa : st'.pool.side_a_total = st.pool.side_a_total := by rw [← hinj]
    have hPb : st'.pool.side_b_total = st.pool.side_b_total := by rw [← hinj]
    have hPbc : st'.pool.bet_count = st.pool.bet_count - 1 := by rw [← hinj]
    have hPmb : st'.pool.min_bet = st.pool.min_bet := by rw [← hinj]
    have hPbw : st'.pool.betting_window = st.pool.betting_window := by
      rw [← hinj]
    have hBets : st'.bets = removeBet st.bets who := by rw [← hinj]
    have hVault : st'.vault = st.vault - bet.amount := by
      rw [← hinj]
      exact wrapSub_eq hple hI.vaultLt
    refine ⟨?_, ?_, ?_, ?_, ?_, ?_, ?_, ?_, ?_, ?_, ?_⟩
    · rw [hBets]; exact pairwise_removeBet hI.distinct
    · intro b hb
      rw [hBets] at hb
      exact hI.amountsPos b (mem_removeBet hb)
    · rw [hPbc, hBets, hrem]
      have := hI.betCountEq
      rw [hl] at this
      simp only [List.length_append, List.length_cons] at this
      simp only [List.length_append]
      omega
    · rw [hPmb]; exact hI.minBetZero
    · rw [hPbw]; exact hI.windowZero
    · rw [hVault]
      exact lt_of_le_of_lt (Nat.sub_le _ _) hI.vaultLt
    · rw [hPa]; exact hI.totalALt
    · rw [hPb]; exact hI.totalBLt
    · intro hc
      rw [hPs, hcan] at hc
      rcases hc with hc | hc <;> exact MatchStatus.noConfusion hc
    · intro hc
      rw [hPs, hcan] at hc
      exact MatchStatus.noConfusion hc
    · rw [show strongBound st' = sumAmt (l1 ++ l2) from by
        rw [strongBound]
        rw [show st'.pool.status = MatchStatus.Cancelled from
            hPs.trans hcan]
        rw [hBets, hrem]]
      rw [hVault]
      rw [show sumAmt (l1 ++ l2) = sumAmt l1 + sumAmt l2 from by
        rw [sumAmt, sumBy_append]; rfl]
      omega

theorem matchInv_closeBet {st st' : MatchState} {who : Nat}
    (hI : MatchInv st)
    (h : closeBet st who = Except.ok st') : MatchInv st' := by
  unfold closeBet at h
  split at h
  case h_1 => exact Except.noConfusion h
  case h_2 bet hfb =>
    split at h
    · exact Except.noConfusion h
    split at h
    · exact Except.noConfusion h
    rename_i hres hwc
    rw [Decidable.not_not] at hres
    have hinj := (Except.ok.injEq _ _).mp h
    obtain ⟨hbw, l1, l2, hl, hrem, hset, hl1, hl2⟩ :=
      findBet_decomp hI.distinct hfb
    obtain ⟨hwne, hfee, harm0, harm1⟩ := hI.resInv hres
    have hbUW : isUnclaimedWinner st.pool bet = false := by
      rcases hw : bet.is_winner st.pool.winner with _ | _
      · simp [isUnclaimedWinner, hw]
      · have hcl : bet.claimed = true := by
          by_contra hcl
          exact hwc ⟨hw, hcl⟩
        simp [isUnclaimedWinner, hw, hcl]
    have hPw : st'.pool.winner = st.pool.winner := by rw [← hinj]
    have hPs : st'.pool.status = st.pool.status := by rw [← hinj]
    have hPa : st'.pool.side_a_total = st.pool.side_a_total := by rw [← hinj]
    have hPb : st'.pool.side_b_total = st.pool.side_b_total := by rw [← hinj]
    have hPca : st'.pool.side_a_bet_count = st.pool.side_a_bet_count := by
      rw [← hinj]
    have hPcb : st'.pool.side_b_bet_count = st.pool.side_b_bet_count := by
      rw [← hinj]
    have hPwbc : st'.pool.winning_bet_count
        = st.pool.winning_bet_count := by rw [← hinj]
    have hPbc : st'.pool.bet_count = st.pool.bet_count - 1 := by rw [← hinj]
    have hPmb : st'.pool.min_bet = st.pool.min_bet := by rw [← hinj]
    have hPbw : st'.pool.betting_window = st.pool.betting_window := by
      rw [← hinj]
    have hPfee : st'.pool.fee_bps = st.pool.fee_bps := by rw [← hinj]
    have hPfw : st'.pool.fees_withdrawn = st.pool.fees_withdrawn := by
      rw [← hinj]
    have hBets : st'.bets = removeBet st.bets who := by rw [← hinj]
    have hVault : st'.vault = st.vault := by rw [← hinj]
    have hWSC : winSideBetCount st'.pool = winSideBetCount st.pool :=
      winSideBetCount_congr hPw hPca hPcb
    refine ⟨?_, ?_, ?_, ?_, ?_, ?_, ?_, ?_, ?_, ?_, ?_⟩
    · rw [hBets]; exact pairwise_removeBet hI.distinct
    · intro b hb
      rw [hBets] at hb
      exact hI.amountsPos b (mem_removeBet hb)
    · rw [hPbc, hBets, hrem]
      have := hI.betCountEq
      rw [hl] at this
      simp only [List.length_append, List.length_cons] at this
      simp only [List.length_append]
      omega
    · rw [hPmb]; exact hI.minBetZero
    · rw [hPbw]; exact hI.windowZero
    · rw [hVault]; exact hI.vaultLt
    · rw [hPa]; exact hI.totalALt
    · rw [hPb]; exact hI.totalBLt
    · intro hc
      rw [hPs, hres] at hc
      rcases hc with hc | hc <;> exact MatchStatus.noConfusion hc
    · intro _
      refine ⟨by rw [hPw]; exact hwne, by rw [hPfee]; exact hfee, ?_, ?_⟩
      · intro h0 b hb
        rw [hWSC] at h0
        rw [hBets] at hb
        rw [hPw]
        exact harm0 h0 b (mem_removeBet hb)
      · intro hne
        rw [hWSC] at hne
        obtain ⟨hWpos, hwbc⟩ := harm1 hne
        constructor
        · rw [winSideTotal_congr hPw hPa hPb]
          exact hWpos
        · have e1 : countUW st'.pool st'.bets
              = (l1 ++ l2).countP (isUnclaimedWinner st.pool) := by
            rw [hBets, hrem, countUW]
            exact countP_ext (fun x _ => isUnclaimedWinner_congr hPw x)
          rw [hPwbc, hwbc, e1, countUW, hl, List.countP_append,
              List.countP_cons, hbUW, List.countP_append]
          simp only [Bool.false_eq_true, if_false]
          omega
    · have hvault := hI.vaultGe
      by_cases hz : winSideBetCount st.pool = 0
      · rw [show strongBound st
            = sumBy (rfdNW st.pool) st.bets +
              (if st.pool.fees_withdrawn then 0 else feeSnap st.pool)
            from by simp [strongBound, hres, if_pos hz]] at hvault
        rw [hl, sumBy_append, sumBy_cons] at hvault
        rw [show strongBound st'
            = sumBy (rfdNW st.pool) (l1 ++ l2) +
              (if st.pool.fees_withdrawn then 0 else feeSnap st.pool)
            from by
          rw [strongBound]
          rw [show st'.pool.status = MatchStatus.Resolved from
              hPs.trans hres]
          rw [hWSC, if_pos hz, hPfw,
              feeSnap_congr hPa hPb hPfee, hBets, hrem]
          rw [show sumBy (rfdNW st'.pool) (l1 ++ l2)
              = sumBy (rfdNW st.pool) (l1 ++ l2) from
            sumBy_congr (fun b _ => rfdNW_congr hPfee b)]]
        rw [hVault, sumBy_append]
        omega
      · rw [show strongBound st'
            = sumBy (fun b => if isUnclaimedWinner st.pool b
                then maxPayout st.pool b else 0) (l1 ++ l2) from by
          rw [strongBound]
          rw [show st'.pool.status = MatchStatus.Resolved from
              hPs.trans hres]
          rw [hWSC, if_neg hz, hBets, hrem]
          refine sumBy_congr ?_
          intro b _
          rw [isUnclaimedWinner_congr hPw]
          rcases hiw : isUnclaimedWinner st.pool b with _ | _
          · simp
          · rw [if_pos (by rfl), if_pos (by rfl),
                maxPayout_congr hPw hPa hPb]]
        rw [show strongBound st = sumBy (fun b =>
              if isUnclaimedWinner st.pool b then maxPayout st.pool b else 0)
              st.bets from by simp [strongBound, hres, if_neg hz]] at hvault
        rw [hl, sumBy_append, sumBy_cons] at hvault
        rw [hVault, sumBy_append]
        omega

set_option maxHeartbeats 3200000 in
theorem matchInv_sweepUnclaimed {st st' : MatchState} {who : Nat} {now : Int}
    (hI : MatchInv st)
    (h : sweepUnclaimed st who now = Except.ok st') : MatchInv st' := by
  unfold sweepUnclaimed at h
  split at h
  case h_1 => exact Except.noConfusion h
  case h_2 bet hfb =>
    split at h
    · exact Except.noConfusion h
    split at h
    · exact Except.noConfusion h
    split at h
    · exact Except.noConfusion h
    split at h
    · exact Except.noConfusion h
    rename_i hres hncl hwin hwind
    rw [Decidable.not_not] at hres
    rw [Decidable.not_not] at hwin
    split at h
    case h_1 => exact Except.noConfusion h
    case h_2 payout hcalc =>
      split at h
      · exact Except.noConfusion h
      rename_i hbal
      rw [Decidable.not_not] at hbal
      have hinj := (Except.ok.injEq _ _).mp h
      obtain ⟨hbw, l1, l2, hl, hrem, hset, hl1, hl2⟩ :=
        findBet_decomp hI.distinct hfb
      have hbet_mem : bet ∈ st.bets := by rw [hl]; simp
      obtain ⟨hwne, hfee, harm0, harm1⟩ := hI.resInv hres
      have hnclf : bet.claimed = false := by
        cases hc : bet.claimed
        · rfl
        · exact absurd hc hncl
      have hUW : isUnclaimedWinner st.pool bet = true := by
        simp [isUnclaimedWinner, hwin, hnclf]
      have hwsc : winSideBetCount st.pool ≠ 0 := by
        intro h0
        have hfalse := harm0 h0 bet hbet_mem
        rw [hwin] at hfalse
        exact Bool.noConfusion hfalse
      obtain ⟨hWpos, hwbc⟩ := harm1 hwsc
      have hmax : payout ≤ maxPayout st.pool bet :=
        sweepPayoutCalc_le_maxPayout hcalc
      have hvault := hI.vaultGe
      rw [show strongBound st = sumBy (fun b =>
            if isUnclaimedWinner st.pool b then maxPayout st.pool b else 0)
            st.bets from by simp [strongBound, hres, if_neg hwsc]] at hvault
      rw [hl, sumBy_append, sumBy_cons, if_pos hUW] at hvault
      have hPw : st'.pool.winner = st.pool.winner := by rw [← hinj]
      have hPs : st'.pool.status = st.pool.status := by rw [← hinj]
      have hPa : st'.pool.side_a_total = st.pool.side_a_total := by
        rw [← hinj]
      have hPb : st'.pool.side_b_total = st.pool.side_b_total := by
        rw [← hinj]
      have hPca : st'.pool.side_a_bet_count = st.pool.side_a_bet_count := by
        rw [← hinj]
      have hPcb : st'.pool.side_b_bet_count = st.pool.side_b_bet_count := by
        rw [← hinj]
      have hPwbc : st'.pool.winning_bet_count
          = st.pool.winning_bet_count - 1 := by rw [← hinj]
      have hPbc : st'.pool.bet_count = st.pool.bet_count - 1 := by
        rw [← hinj]
      have hPmb : st'.pool.min_bet = st.pool.min_bet := by rw [← hinj]
      have hPbw : st'.pool.betting_window = st.pool.betting_window := by
        rw [← hinj]
      have hPfee : st'.pool.fee_bps = st.pool.fee_bps := by rw [← hinj]
      have hBets : st'.bets = removeBet st.bets who := by rw [← hinj]
      have hVault : st'.vault = st.vault - payout := by rw [← hinj]
      have hWSC : winSideBetCount st'.pool = winSideBetCount st.pool :=
        winSideBetCount_congr hPw hPca hPcb
      refine ⟨?_, ?_, ?_, ?_, ?_, ?_, ?_, ?_, ?_, ?_, ?_⟩
      · rw [hBets]; exact pairwise_removeBet hI.distinct
      · intro b hb
        rw [hBets] at hb
        exact hI.amountsPos b (mem_removeBet hb)
      · rw [hPbc, hBets, hrem]
        have := hI.betCountEq
        rw [hl] at this
        simp only [List.length_append, List.length_cons] at this
        simp only [List.length_append]
        omega
      · rw [hPmb]; exact hI.minBetZero
      · rw [hPbw]; exact hI.windowZero
      · rw [hVault]
        exact lt_of_le_of_lt (Nat.sub_le _ _) hI.vaultLt
      · rw [hPa]; exact hI.totalALt
      · rw [hPb]; exact hI.totalBLt
      · intro hc
        rw [hPs, hres] at hc
        rcases hc with hc | hc <;> exact MatchStatus.noConfusion hc
      · intro _
        refine ⟨by rw [hPw]; exact hwne, by rw [hPfee]; exact hfee, ?_, ?_⟩
        · intro h0
          rw [hWSC] at h0
          exact absurd h0 hwsc
        · intro _
          constructor
          · rw [winSideTotal_congr hPw hPa hPb]
            exact hWpos
          · have e1 : countUW st'.pool st'.bets
                = (l1 ++ l2).countP (isUnclaimedWinner st.pool) := by
              rw [hBets, hrem, countUW]
              exact countP_ext (fun x _ => isUnclaimedWinner_congr hPw x)
            rw [hPwbc, hwbc, e1, countUW, hl, List.countP_append,
                List.countP_cons, if_pos hUW, List.countP_append]
            omega
      · rw [show strongBound st' = sumBy (fun b =>
            if isUnclaimedWinner st.pool b then maxPayout st.pool b else 0)
            (l1 ++ l2) from by
          rw [strongBound]
          rw [show st'.pool.status = MatchStatus.Resolved from
              hPs.trans hres]
          rw [hWSC, if_neg hwsc, hBets, hrem]
          refine sumBy_congr ?_
          intro b _
          rw [isUnclaimedWinner_congr hPw]
          rcases hiw : isUnclaimedWinner st.pool b with _ | _
          · simp
          · rw [if_pos (by rfl), if_pos (by rfl),
                maxPayout_congr hPw hPa hPb]]
        rw [hVault, sumBy_append]
        omega

theorem matchInv_sweepCancelled {st st' : MatchState} {who : Nat} {now : Int}
    (hI : MatchInv st)
    (h : sweepCancelled st who now = Except.ok st') : MatchInv st' := by
  unfold sweepCancelled at h
  split at h
  case h_1 => exact Except.noConfusion h
  case h_2 bet hfb =>
    split at h
    · exact Except.noConfusion h
    split at h
    · exact Except.noConfusion h
    rename_i hcan hwind
    rw [Decidable.not_not] at hcan
    have hinj := (Except.ok.injEq _ _).mp h
    obtain ⟨hbw, l1, l2, hl, hrem, hset, hl1, hl2⟩ :=
      findBet_decomp hI.distinct hfb
    have hvault := hI.vaultGe
    rw [show strongBound st = sumAmt st.bets from by
        simp [strongBound, hcan]] at hvault
    rw [hl] at hvault
    rw [show sumAmt (l1 ++ bet :: l2)
        = sumAmt l1 + (bet.amount + sumAmt l2) from by
      rw [sumAmt, sumBy_append, sumBy_cons]; rfl] at hvault
    have hPs : st'.pool.status = st.pool.status := by rw [← hinj]
    have hPa : st'.pool.side_a_total = st.pool.side_a_total := by rw [← hinj]
    have hPb : st'.pool.side_b_total = st.pool.side_b_total := by rw [← hinj]
    have hPbc : st'.pool.bet_count = st.pool.bet_count - 1 := by rw [← hinj]
    have hPmb : st'.pool.min_bet = st.pool.min_bet := by rw [← hinj]
    have hPbw : st'.pool.betting_window = st.pool.betting_window := by
      rw [← hinj]
    have hBets : st'.bets = removeBet st.bets who := by rw [← hinj]
    have hVault : st'.vault = st.vault - min bet.amount st.vault := by
      rw [← hinj]
    refine ⟨?_, ?_, ?_, ?_, ?_, ?_, ?_, ?_, ?_, ?_, ?_⟩
    · rw [hBets]; exact pairwise_removeBet hI.distinct
    · intro b hb
      rw [hBets] at hb
      exact hI.amountsPos b (mem_removeBet hb)
    · rw [hPbc, hBets, hrem]
      have := hI.betCountEq
      rw [hl] at this
      simp only [List.length_append, List.length_cons] at this
      simp only [List.length_append]
      omega
    · rw [hPmb]; exact hI.minBetZero
    · rw [hPbw]; exact hI.windowZero
    · rw [hVault]
      exact lt_of_le_of_lt (Nat.sub_le _ _) hI.vaultLt
    · rw [hPa]; exact hI.totalALt
    · rw [hPb]; exact hI.totalBLt
    · intro hc
      rw [hPs, hcan] at hc
      rcases hc with hc | hc <;> exact MatchStatus.noConfusion hc
    · intro hc
      rw [hPs, hcan] at hc
      exact MatchStatus.noConfusion hc
    · rw [show strongBound st' = sumAmt (l1 ++ l2) from by
        rw [strongBound]
        rw [show st'.pool.status = MatchStatus.Cancelled from
            hPs.trans hcan]
        rw [hBets, hrem]]
      rw [hVault]
      rw [show sumAmt (l1 ++ l2) = sumAmt l1 + sumAmt l2 from by
        rw [sumAmt, sumBy_append]; rfl]
      omega

theorem matchInv_withdrawFees {st st' : MatchState} {now : Int}
    (hI : MatchInv st)
    (h : withdrawFees st now = Except.ok st') : MatchInv st' := by
  unfold withdrawFees at h
  split at h
  · exact Except.noConfusion h
  split at h
  · exact Except.noConfusion h
  split at h
  · exact Except.noConfusion h
  split at h
  · exact Except.noConfusion h
  rename_i hres hfw hwbc0 hwind
  rw [Decidable.not_not] at hres
  rw [Decidable.not_not] at hwbc0
  have hfwF : st.pool.fees_withdrawn = false := by
    cases hc : st.pool.fees_withdrawn
    · rfl
    · exact absurd hc hfw
  split at h
  case h_1 => exact Except.noConfusion h
  case h_2 fee hcalc =>
    have hinj := (Except.ok.injEq _ _).mp h
    obtain ⟨hwne, hfee, harm0, harm1⟩ := hI.resInv hres
    have hfval : fee = feeSnap st.pool := withdrawFeesCalc_ok hcalc
    have hPw : st'.pool.winner = st.pool.winner := by rw [← hinj]
    have hPs : st'.pool.status = st.pool.status := by rw [← hinj]
    have hPa : st'.pool.side_a_total = st.pool.side_a_total := by rw [← hinj]
    have hPb : st'.pool.side_b_total = st.pool.side_b_total := by rw [← hinj]
    have hPca : st'.pool.side_a_bet_count = st.pool.side_a_bet_count := by
      rw [← hinj]
    have hPcb : st'.pool.side_b_bet_count = st.pool.side_b_bet_count := by
      rw [← hinj]
    have hPwbc : st'.pool.winning_bet_count
        = st.pool.winning_bet_count := by rw [← hinj]
    have hPbc : st'.pool.bet_count = st.pool.bet_count := by rw [← hinj]
    have hPmb : st'.pool.min_bet = st.pool.min_bet := by rw [← hinj]
    have hPbw : st'.pool.betting_window = st.pool.betting_window := by
      rw [← hinj]
    have hPfee : st'.pool.fee_bps = st.pool.fee_bps := by rw [← hinj]
    have hPfw : st'.pool.fees_withdrawn = true := by rw [← hinj]
    have hBets : st'.bets = st.bets := by rw [← hinj]
    have hVault : st'.vault = st.vault - min fee st.vault := by rw [← hinj]
    have hWSC : winSideBetCount st'.pool = winSideBetCount st.pool :=
      winSideBetCount_congr hPw hPca hPcb
    refine ⟨?_, ?_, ?_, ?_, ?_, ?_, ?_, ?_, ?_, ?_, ?_⟩
    · rw [hBets]; exact hI.distinct
    · intro b hb
      rw [hBets] at hb
      exact hI.amountsPos b hb
    · rw [hPbc, hBets]
      exact hI.betCountEq
    · rw [hPmb]; exact hI.minBetZero
    · rw [hPbw]; exact hI.windowZero
    · rw [hVault]
      exact lt_of_le_of_lt (Nat.sub_le _ _) hI.vaultLt
    · rw [hPa]; exact hI.totalALt
    · rw [hPb]; exact hI.totalBLt
    · intro hc
      rw [hPs, hres] at hc
      rcases hc with hc | hc <;> exact MatchStatus.noConfusion hc
    · intro _
      refine ⟨by rw [hPw]; exact hwne, by rw [hPfee]; exact hfee, ?_, ?_⟩
      · intro h0 b hb
        rw [hWSC] at h0
        rw [hBets] at hb
        rw [hPw]
        exact harm0 h0 b hb
      · intro hne
        rw [hWSC] at hne
        obtain ⟨hWpos, hwbc⟩ := harm1 hne
        constructor
        · rw [winSideTotal_congr hPw hPa hPb]
          exact hWpos
        · have e1 : countUW st'.pool st'.bets
              = countUW st.pool st.bets := by
            rw [hBets, countUW, countUW]
            exact countP_ext (fun x _ => isUnclaimedWinner_congr hPw x)
          rw [hPwbc, hwbc, e1]
    · have hvault := hI.vaultGe
      by_cases hz : winSideBetCount st.pool = 0
      · rw [show strongBound st
            = sumBy (rfdNW st.pool) st.bets + feeSnap st.pool
            from by simp [strongBound, hres, if_pos hz, hfwF]] at hvault
        rw [show strongBound st' = sumBy (rfdNW st.pool) st.bets from by
          rw [strongBound]
          rw [show st'.pool.status = MatchStatus.Resolved from
              hPs.trans hres]
          rw [hWSC, if_pos hz, hPfw, hBets]
          rw [show sumBy (rfdNW st'.pool) st.bets
              = sumBy (rfdNW st.pool) st.bets from
            sumBy_congr (fun b _ => rfdNW_congr hPfee b)]
          simp]
        rw [hVault, hfval]
        omega
      · obtain ⟨-, hwbc⟩ := harm1 hz
        have hcnt : countUW st.pool st.bets = 0 := by
          rw [← hwbc]; exact hwbc0
        rw [show strongBound st' = 0 from by
          rw [strongBound]
          rw [show st'.pool.status = MatchStatus.Resolved from
              hPs.trans hres]
          rw [hWSC, if_neg hz]
          have hcnt2 : st'.bets.countP (isUnclaimedWinner st'.pool) = 0 := by
            rw [show st'.bets.countP (isUnclaimedWinner st'.pool)
                = st'.bets.countP (isUnclaimedWinner st.pool) from
              countP_ext (fun x _ => isUnclaimedWinner_congr hPw x)]
            rw [hBets]
            exact hcnt
          exact sumBy_if_zero (f := fun b => maxPayout st'.pool b) hcnt2]
        exact Nat.zero_le _

set_option maxHeartbeats 3200000 in
theorem matchInv_resolve {st st' : MatchState} {config : PlatformConfig}
    {winner : Nat} {now : Int} (hI : MatchInv st)
    (hcfg : config.fee_bps ≤ MAX_FEE_BPS)
    (h : resolveMatch st config winner now = Except.ok st') : MatchInv st' := by
  have hs10 : config.fee_bps ≤ 10000 :=
    le_trans hcfg (by norm_num [MAX_FEE_BPS])
  unfold resolveMatch at h
  split at h
  · exact Except.noConfusion h
  rename_i hlocked
  rw [Decidable.not_not] at hlocked
  obtain ⟨-, -, hfw, hcl, hA, hB, hCA, hCB⟩ := hI.preInv (Or.inr hlocked)
  have hvault := hI.vaultGe
  rw [show strongBound st = st.pool.side_a_total + st.pool.side_b_total from
      by simp [strongBound, hlocked]] at hvault
  have hsum : sumAmt st.bets =
      st.pool.side_a_total + st.pool.side_b_total := by
    rw [sumAmt_sides, ← hA, ← hB]
  split at h
  case h_1 =>
    obtain rfl := (Except.ok.injEq _ _).mp h
    refine ⟨hI.distinct, hI.amountsPos, hI.betCountEq, hI.minBetZero,
            hI.windowZero, hI.vaultLt, hI.totalALt, hI.totalBLt, ?_, ?_, ?_⟩
    · intro hc; rcases hc with hc | hc <;> simp at hc
    · intro _
      refine ⟨by simp, hcfg, ?_, ?_⟩
      · intro h0 b hb
        simp only [winSideBetCount] at h0
        have hz : countSide BetSide.SideA st.bets = 0 := by
          rw [← hCA]; exact h0
        have hnb := List.countP_eq_zero.mp hz b hb
        cases hsb : b.side
        · exfalso; rw [hsb] at hnb; simp at hnb
        · simp [Bet.is_winner, hsb]
      · intro hne
        simp only [winSideBetCount] at hne ⊢
        constructor
        · have hz : countSide BetSide.SideA st.bets ≠ 0 := by
            rw [← hCA]; exact hne
          have := sumSide_pos hI.amountsPos hz
          simpa [winSideTotal, hA] using this
        · simp only [countUW]
          rw [hCA, countSide]
          refine countP_ext ?_
          intro b hb
          cases hsb : b.side <;>
            simp [isUnclaimedWinner, Bet.is_winner, hsb, hcl b hb]
    · simp only [strongBound, winSideBetCount]
      by_cases hz : st.pool.side_a_bet_count = 0
      · rw [if_pos hz]
        have e1 : sumBy (rfdNW { st.pool with
              winner := MatchWinner.SideA, status := MatchStatus.Resolved,
              resolve_timestamp := now,
              winning_bet_count := st.pool.side_a_bet_count,
              fee_bps := config.fee_bps }) st.bets
            = sumBy (fun b =>
                b.amount * (10000 - config.fee_bps) / 10000) st.bets :=
          sumBy_congr (fun b _ => by simp [rfdNW])
        rw [hfw]
        simp only [Bool.false_eq_true, if_false, e1, feeSnap]
        exact le_trans (nowinners_refunds_fee_le hs10 hsum) hvault
      · rw [if_neg hz]
        have hApos : 0 < st.pool.side_a_total := by
          rw [hA]
          exact sumSide_pos hI.amountsPos (by rw [← hCA]; exact hz)
        have e1 : sumBy (fun b =>
              if isUnclaimedWinner { st.pool with
                  winner := MatchWinner.SideA, status := MatchStatus.Resolved,
                  resolve_timestamp := now,
                  winning_bet_count := st.pool.side_a_bet_count,
                  fee_bps := config.fee_bps } b
              then maxPayout { st.pool with
                  winner := MatchWinner.SideA, status := MatchStatus.Resolved,
                  resolve_timestamp := now,
                  winning_bet_count := st.pool.side_a_bet_count,
                  fee_bps := config.fee_bps } b
              else 0) st.bets
            = sumBy (fun b => if b.side = BetSide.SideA then
                (st.pool.side_a_total + st.pool.side_b_total) * b.amount
                  / st.pool.side_a_total
              else 0) st.bets := by
          refine sumBy_congr ?_
          intro b hb
          cases hsb : b.side <;>
            simp [isUnclaimedWinner, Bet.is_winner, hsb, hcl b hb,
                  maxPayout, winSideTotal]
        rw [e1]
        exact le_trans (winner_payouts_le hApos hA.symm) hvault
  case h_2 =>
    obtain rfl := (Except.ok.injEq _ _).mp h
    refine ⟨hI.distinct, hI.amountsPos, hI.betCountEq, hI.minBetZero,
            hI.windowZero, hI.vaultLt, hI.totalALt, hI.totalBLt, ?_, ?_, ?_⟩
    · intro hc; rcases hc with hc | hc <;> simp at hc
    · intro _
      refine ⟨by simp, hcfg, ?_, ?_⟩
      · intro h0 b hb
        simp only [winSideBetCount] at h0
        have hz : countSide BetSide.SideB st.bets = 0 := by
          rw [← hCB]; exact h0
        have hnb := List.countP_eq_zero.mp hz b hb
        cases hsb : b.side
        · simp [Bet.is_winner, hsb]
        · exfalso; rw [hsb] at hnb; simp at hnb
      · intro hne
        simp only [winSideBetCount] at hne ⊢
        constructor
        · have hz : countSide BetSide.SideB st.bets ≠ 0 := by
            rw [← hCB]; exact hne
          have := sumSide_pos hI.amountsPos hz
          simpa [winSideTotal, hB] using this
        · simp only [countUW]
          rw [hCB, countSide]
          refine countP_ext ?_
          intro b hb
          cases hsb : b.side <;>
            simp [isUnclaimedWinner, Bet.is_winner, hsb, hcl b hb]
    · simp only [strongBound, winSideBetCount]
      by_cases hz : st.pool.side_b_bet_count = 0
      · rw [if_pos hz]
        have e1 : sumBy (rfdNW { st.pool with
              winner := MatchWinner.SideB, status := MatchStatus.Resolved,
              resolve_timestamp := now,
              winning_bet_count := st.pool.side_b_bet_count,
              fee_bps := config.fee_bps }) st.bets
            = sumBy (fun b =>
                b.amount * (10000 - config.fee_bps) / 10000) st.bets :=
          sumBy_congr (fun b _ => by simp [rfdNW])
        rw [hfw]
        simp only [Bool.false_eq_true, if_false, e1, feeSnap]
        exact le_trans (nowinners_refunds_fee_le hs10 hsum) hvault
      · rw [if_neg hz]
        have hBpos : 0 < st.pool.side_b_total := by
          rw [hB]
          exact sumSide_pos hI.amountsPos (by rw [← hCB]; exact hz)
        have e1 : sumBy (fun b =>
              if isUnclaimedWinner { st.pool with
                  winner := MatchWinner.SideB, status := MatchStatus.Resolved,
                  resolve_timestamp := now,
                  winning_bet_count := st.pool.side_b_bet_count,
                  fee_bps := config.fee_bps } b
              then maxPayout { st.pool with
                  winner := MatchWinner.SideB, status := MatchStatus.Resolved,
                  resolve_timestamp := now,
                  winning_bet_count := st.pool.side_b_bet_count,
                  fee_bps := config.fee_bps } b
              else 0) st.bets
            = sumBy (fun b => if b.side = BetSide.SideB then
                (st.pool.side_a_total + st.pool.side_b_total) * b.amount
                  / st.pool.side_b_total
              else 0) st.bets := by
          refine sumBy_congr ?_
          intro b hb
          cases hsb : b.side <;>
            simp [isUnclaimedWinner, Bet.is_winner, hsb, hcl b hb,
                  maxPayout, winSideTotal]
        rw [e1]
        exact le_trans (winner_payouts_le hBpos hB.symm) hvault
  case h_3 => exact Except.noConfusion h

set_option maxHeartbeats 1600000 in
theorem matchInv_placeBet {st st' : MatchState} {who side amount : Nat}
    {now : Int} (hI : MatchInv st)
    (h : placeBet st who side amount now = Except.ok st') : MatchInv st' := by
  unfold placeBet at h
  split at h
  · exact Except.noConfusion h
  split at h
  · exact Except.noConfusion h
  split at h
  · exact Except.noConfusion h
  split at h
  · exact Except.noConfusion h
  split at h
  · exact Except.noConfusion h
  split at h
  · exact Except.noConfusion h
  rename_i hfound hpos hopen _ _ hvault
  have hnone : findBet st.bets who = none :=
    Option.not_isSome_iff_eq_none.mp hfound
  rw [Decidable.not_not] at hpos hopen
  rw [Decidable.not_not] at hvault
  have hnotin := findBet_none hnone
  have hpre := hI.preInv (Or.inl hopen)
  split at h
  case h_3 => exact Except.noConfusion h
  case h_1 =>
    split at h
    · exact Except.noConfusion h
    split at h
    · exact Except.noConfusion h
    split at h
    · exact Except.noConfusion h
    rename_i htot hcnt hbcnt
    rw [Decidable.not_not] at htot hcnt hbcnt
    obtain rfl := (Except.ok.injEq _ _).mp h
    unfold placeBetResultA
    refine ⟨?_, ?_, ?_, hI.minBetZero, hI.windowZero, hvault, htot,
            hI.totalBLt, ?_, ?_, ?_⟩
    · rw [List.pairwise_append]
      exact ⟨hI.distinct, by simp, by
        intro a ha b hb
        simp only [List.mem_singleton] at hb
        subst hb
        exact hnotin a ha⟩
    · intro b hb
      rcases List.mem_append.mp hb with hb | hb
      · exact hI.amountsPos b hb
      · simp only [List.mem_singleton] at hb
        subst hb
        exact hpos
    · simp [hI.betCountEq]
    · intro _
      refine ⟨hpre.1, hpre.2.1, hpre.2.2.1, ?_, ?_, ?_, ?_, ?_⟩
      · intro b hb
        rcases List.mem_append.mp hb with hb | hb
        · exact hpre.2.2.2.1 b hb
        · simp only [List.mem_singleton] at hb
          subst hb
          rfl
      · have hA := hpre.2.2.2.2.1
        simp only [sumSide] at hA ⊢
        rw [sumBy_append, ← hA]
        simp [sumBy]
      · have hB := hpre.2.2.2.2.2.1
        simp only [sumSide] at hB ⊢
        rw [sumBy_append, ← hB]
        simp [sumBy]
      · have hCA := hpre.2.2.2.2.2.2.1
        simp only [countSide] at hCA ⊢
        rw [List.countP_append, ← hCA]
        simp [List.countP_cons]
      · have hCB := hpre.2.2.2.2.2.2.2
        simp only [countSide] at hCB ⊢
        rw [List.countP_append, ← hCB]
        simp [List.countP_cons]
    · intro hc; simp [hopen] at hc
    · have := hI.vaultGe
      simp only [strongBound, hopen] at this
      simp only [strongBound, hopen]
      omega
  case h_2 =>
    split at h
    · exact Except.noConfusion h
    split at h
    · exact Except.noConfusion h
    split at h
    · exact Except.noConfusion h
    rename_i htot hcnt hbcnt
    rw [Decidable.not_not] at htot hcnt hbcnt
    obtain rfl := (Except.ok.injEq _ _).mp h
    unfold placeBetResultB
    refine ⟨?_, ?_, ?_, hI.minBetZero, hI.windowZero, hvault, hI.totalALt,
            htot, ?_, ?_, ?_⟩
    · rw [List.pairwise_append]
      exact ⟨hI.distinct, by simp, by
        intro a ha b hb
        simp only [List.mem_singleton] at hb
        subst hb
        exact hnotin a ha⟩
    · intro b hb
      rcases List.mem_append.mp hb with hb | hb
      · exact hI.amountsPos b hb
      · simp only [List.mem_singleton] at hb
        subst hb
        exact hpos
    · simp [hI.betCountEq]
    · intro _
      refine ⟨hpre.1, hpre.2.1, hpre.2.2.1, ?_, ?_, ?_, ?_, ?_⟩
      · intro b hb
        rcases List.mem_append.mp hb with hb | hb
        · exact hpre.2.2.2.1 b hb
        · simp only [List.mem_singleton] at hb
          subst hb
          rfl
      · have hA := hpre.2.2.2.2.1
        simp only [sumSide] at hA ⊢
        rw [sumBy_append, ← hA]
        simp [sumBy]
      · have hB := hpre.2.2.2.2.2.1
        simp only [sumSide] at hB ⊢
        rw [sumBy_append, ← hB]
        simp [sumBy]
      · have hCA := hpre.2.2.2.2.2.2.1
        simp only [countSide] at hCA ⊢
        rw [List.countP_append, ← hCA]
        simp [List.countP_cons]
      · have hCB := hpre.2.2.2.2.2.2.2
        simp only [countSide] at hCB ⊢
        rw [List.countP_append, ← hCB]
        simp [List.countP_cons]
    · intro hc; simp [hopen] at hc
    · have := hI.vaultGe
      simp only [strongBound, hopen] at this
      simp only [strongBound, hopen]
      omega

/-! ## World-level invariant -/

theorem updateConfigTail_fee (c : PlatformConfig) (p : Option Bool)
    (o t : Option Nat) : (updateConfigTail c p o t).fee_bps = c.fee_bps := by
  unfold updateConfigTail
  cases p <;> cases o <;> cases t <;> rfl

theorem updateConfigRest_fee {c c' : PlatformConfig} {mt : Option Int}
    {p : Option Bool} {o t : Option Nat}
    (h : updateConfigRest c mt p o t = Except.ok c') :
    c'.fee_bps = c.fee_bps := by
  unfold updateConfigRest at h
  split at h
  case h_1 =>
    split at h
    · exact Except.noConfusion h
    obtain rfl := (Except.ok.injEq _ _).mp h
    rw [updateConfigTail_fee]
  case h_2 =>
    obtain rfl := (Except.ok.injEq _ _).mp h
    rw [updateConfigTail_fee]

theorem updateConfig_fee_le {c c' : PlatformConfig} {f : Option Nat}
    {mt : Option Int} {p : Option Bool} {o t : Option Nat}
    (hc : c.fee_bps ≤ MAX_FEE_BPS)
    (h : updateConfig c f mt p o t = Except.ok c') :
    c'.fee_bps ≤ MAX_FEE_BPS := by
  unfold updateConfig at h
  split at h
  case h_1 fv =>
    split at h
    · exact Except.noConfusion h
    rename_i hle
    rw [Decidable.not_not] at hle
    rw [updateConfigRest_fee h]
    exact hle
  case h_2 =>
    rw [updateConfigRest_fee h]
    exact hc

theorem worldInv_init {w : World} (h : WorldInit w) : WorldInv w := by
  obtain ⟨hnone, auth, orc, trs, fee, mt, hinit⟩ := h
  constructor
  · unfold initPlatform at hinit
    split at hinit
    · exact Except.noConfusion hinit
    rename_i hle
    rw [Decidable.not_not] at hle
    have e := (Except.ok.injEq _ _).mp hinit
    rw [← e]
    exact hle
  · intro ms hms
    rw [hnone] at hms
    exact Option.noConfusion hms

theorem worldInv_step {w w' : World} (hI : WorldInv w) (hs : Step w w') :
    WorldInv w' := by
  obtain ⟨hcfg, hmatch⟩ := hI
  cases hs with
  | createStep fa fb creator rentMin now ms hnone hrent h =>
    refine ⟨hcfg, ?_⟩
    intro ms' hms'
    obtain rfl : ms = ms' := by simpa using hms'
    exact matchInv_create hrent h
  | placeBetStep st st' who side amount now hm h =>
    refine ⟨hcfg, ?_⟩
    intro ms' hms'
    obtain rfl : st' = ms' := by simpa using hms'
    exact matchInv_placeBet (hmatch st hm) h
  | lockStep st st' now hm h =>
    refine ⟨hcfg, ?_⟩
    intro ms' hms'
    obtain rfl : st' = ms' := by simpa using hms'
    exact matchInv_lock (hmatch st hm) h
  | resolveStep st st' winner now hm h =>
    refine ⟨hcfg, ?_⟩
    intro ms' hms'
    obtain rfl : st' = ms' := by simpa using hms'
    exact matchInv_resolve (hmatch st hm) hcfg h
  | cancelStep st st' now hm h =>
    refine ⟨hcfg, ?_⟩
    intro ms' hms'
    obtain rfl : st' = ms' := by simpa using hms'
    exact matchInv_cancel (hmatch st hm) h
  | timeoutStep st st' now hm h =>
    refine ⟨hcfg, ?_⟩
    intro ms' hms'
    obtain rfl : st' = ms' := by simpa using hms'
    exact matchInv_timeout (hmatch st hm) h
  | claimStep st st' who hm h =>
    refine ⟨hcfg, ?_⟩
    intro ms' hms'
    obtain rfl : st' = ms' := by simpa using hms'
    exact matchInv_claim (hmatch st hm) h
  | refundNoWinnersStep st st' who hm h =>
    refine ⟨hcfg, ?_⟩
    intro ms' hms'
    obtain rfl : st' = ms' := by simpa using hms'
    exact matchInv_refundNoWinners (hmatch st hm) h
  | refundBetStep st st' who hm h =>
    refine ⟨hcfg, ?_⟩
    intro ms' hms'
    obtain rfl : st' = ms' := by simpa using hms'
    exact matchInv_refundBet (hmatch st hm) h
  | closeBetStep st st' who hm h =>
    refine ⟨hcfg, ?_⟩
    intro ms' hms'
    obtain rfl : st' = ms' := by simpa using hms'
    exact matchInv_closeBet (hmatch st hm) h
  | sweepUnclaimedStep st st' who now hm h =>
    refine ⟨hcfg, ?_⟩
    intro ms' hms'
    obtain rfl : st' = ms' := by simpa using hms'
    exact matchInv_sweepUnclaimed (hmatch st hm) h
  | sweepCancelledStep st st' who now hm h =>
    refine ⟨hcfg, ?_⟩
    intro ms' hms'
    obtain rfl : st' = ms' := by simpa using hms'
    exact matchInv_sweepCancelled (hmatch st hm) h
  | withdrawFeesStep st st' now hm h =>
    refine ⟨hcfg, ?_⟩
    intro ms' hms'
    obtain rfl : st' = ms' := by simpa using hms'
    exact matchInv_withdrawFees (hmatch st hm) h
  | closeMatchStep st hm h =>
    refine ⟨hcfg, ?_⟩
    intro ms' hms'
    exact Option.noConfusion hms'
  | updateConfigStep cfg' f mt p o t h =>
    refine ⟨updateConfig_fee_le hcfg h, ?_⟩
    intro ms' hms'
    exact hmatch ms' hms'
  | updateAuthorityStep newAuth =>
    exact ⟨hcfg, fun ms' hms' => hmatch ms' hms'⟩

/-- Every reachable world satisfies the inductive invariant. -/
theorem worldInv_reachable {w : World} (h : Reachable w) : WorldInv w := by
  obtain ⟨w0, hinit, hsteps⟩ := h
  induction hsteps with
  | refl => exact worldInv_init hinit
  | tail _ hs ih => exact worldInv_step ih hs


/-! ## Per-instruction effect summaries (guards and written fields) -/

set_option maxHeartbeats 1600000 in
theorem placeBet_effects {st st' : MatchState} {who side amount : Nat}
    {now : Int} (h : placeBet st who side amount now = Except.ok st') :
    st.pool.status = MatchStatus.Open ∧
    st'.pool.status = st.pool.status ∧
    st'.pool.fee_bps = st.pool.fee_bps ∧
    st'.pool.winning_bet_count = st.pool.winning_bet_count := by
  unfold placeBet at h
  split at h
  · exact Except.noConfusion h
  split at h
  · exact Except.noConfusion h
  split at h
  · exact Except.noConfusion h
  split at h
  · exact Except.noConfusion h
  split at h
  · exact Except.noConfusion h
  split at h
  · exact Except.noConfusion h
  rename_i _ _ hopen _ _ _
  rw [Decidable.not_not] at hopen
  split at h
  case h_3 => exact Except.noConfusion h
  case h_1 =>
    split at h
    · exact Except.noConfusion h
    split at h
    · exact Except.noConfusion h
    split at h
    · exact Except.noConfusion h
    have hinj := (Except.ok.injEq _ _).mp h
    refine ⟨hopen, ?_, ?_, ?_⟩ <;> rw [← hinj] <;> simp [placeBetResultA]
  case h_2 =>
    split at h
    · exact Except.noConfusion h
    split at h
    · exact Except.noConfusion h
    split at h
    · exact Except.noConfusion h
    have hinj := (Except.ok.injEq _ _).mp h
    refine ⟨hopen, ?_, ?_, ?_⟩ <;> rw [← hinj] <;> simp [placeBetResultB]

theorem lockMatch_effects {st st' : MatchState} {now : Int}
    (h : lockMatch st now = Except.ok st') :
    st.pool.status = MatchStatus.Open ∧
    st'.pool.status = MatchStatus.Locked ∧
    st'.pool.fee_bps = st.pool.fee_bps ∧
    st'.pool.winning_bet_count = st.pool.winning_bet_count := by
  unfold lockMatch at h
  split at h
  · exact Except.noConfusion h
  rename_i hopen
  rw [Decidable.not_not] at hopen
  have hinj := (Except.ok.injEq _ _).mp h
  exact ⟨hopen, by rw [← hinj], by rw [← hinj],
         by rw [← hinj]⟩

theorem resolveMatch_effects {st st' : MatchState} {config : PlatformConfig}
    {winner : Nat} {now : Int}
    (h : resolveMatch st config winner now = Except.ok st') :
    st.pool.status = MatchStatus.Locked ∧
    st'.pool.status = MatchStatus.Resolved ∧
    st'.pool.fee_bps = config.fee_bps ∧
    st'.pool.winning_bet_count = winSideBetCount st'.pool ∧
    st'.pool.side_a_bet_count = st.pool.side_a_bet_count ∧
    st'.pool.side_b_bet_count = st.pool.side_b_bet_count ∧
    st'.pool.winner ≠ MatchWinner.None := by
  unfold resolveMatch at h
  split at h
  · exact Except.noConfusion h
  rename_i hlocked
  rw [Decidable.not_not] at hlocked
  split at h
  case h_1 =>
    have hinj := (Except.ok.injEq _ _).mp h
    refine ⟨hlocked, by rw [← hinj], by rw [← hinj], ?_,
            by rw [← hinj], by rw [← hinj], ?_⟩
    · rw [← hinj]
      rfl
    · rw [← hinj]
      simp
  case h_2 =>
    have hinj := (Except.ok.injEq _ _).mp h
    refine ⟨hlocked, by rw [← hinj], by rw [← hinj], ?_,
            by rw [← hinj], by rw [← hinj], ?_⟩
    · rw [← hinj]
      rfl
    · rw [← hinj]
      simp
  case h_3 => exact Except.noConfusion h

theorem cancelMatch_effects {st st' : MatchState} {now : Int}
    (h : cancelMatch st now = Except.ok st') :
    (st.pool.status = MatchStatus.Open ∨
     st.pool.status = MatchStatus.Locked) ∧
    st'.pool.status = MatchStatus.Cancelled ∧
    st'.pool.fee_bps = st.pool.fee_bps ∧
    st'.pool.winning_bet_count = st.pool.winning_bet_count := by
  unfold cancelMatch at h
  split at h
  · exact Except.noConfusion h
  rename_i hol
  rw [Decidable.not_not] at hol
  have hinj := (Except.ok.injEq _ _).mp h
  exact ⟨hol, by rw [← hinj], by rw [← hinj],
         by rw [← hinj]⟩

theorem timeoutMatch_effects {st st' : MatchState} {config : PlatformConfig}
    {now : Int} (h : timeoutMatch st config now = Except.ok st') :
    st.pool.status = MatchStatus.Locked ∧
    st'.pool.status = MatchStatus.Cancelled ∧
    st'.pool.fee_bps = st.pool.fee_bps ∧
    st'.pool.winning_bet_count = st.pool.winning_bet_count := by
  unfold timeoutMatch at h
  split at h
  · exact Except.noConfusion h
  split at h
  · exact Except.noConfusion h
  rename_i hlocked _
  rw [Decidable.not_not] at hlocked
  have hinj := (Except.ok.injEq _ _).mp h
  exact ⟨hlocked, by rw [← hinj], by rw [← hinj],
         by rw [← hinj]⟩

theorem claimPayout_effects {st st' : MatchState} {config : PlatformConfig}
    {who : Nat} (h : claimPayout st config who = Except.ok st') :
    st.pool.status = MatchStatus.Resolved ∧
    st'.pool.status = st.pool.status ∧
    st'.pool.fee_bps = st.pool.fee_bps ∧
    st'.pool.winning_bet_count = st.pool.winning_bet_count - 1 := by
  unfold claimPayout at h
  split at h
  case h_1 => exact Except.noConfusion h
  case h_2 bet hfb =>
    split at h
    · exact Except.noConfusion h
    split at h
    · exact Except.noConfusion h
    split at h
    · exact Except.noConfusion h
    rename_i hres _ _
    rw [Decidable.not_not] at hres
    split at h
    case h_1 => exact Except.noConfusion h
    case h_2 payout hcalc =>
      have hinj := (Except.ok.injEq _ _).mp h
      exact ⟨hres, by rw [← hinj], by rw [← hinj],
             by rw [← hinj]⟩

theorem refundNoWinners_effects {st st' : MatchState} {who : Nat}
    (h : refundNoWinners st who = Except.ok st') :
    st.pool.status = MatchStatus.Resolved ∧
    st.pool.winning_bet_count = 0 ∧
    st'.pool.status = st.pool.status ∧
    st'.pool.fee_bps = st.pool.fee_bps ∧
    st'.pool.winning_bet_count = st.pool.winning_bet_count := by
  unfold refundNoWinners at h
  split at h
  case h_1 => exact Except.noConfusion h
  case h_2 bet hfb =>
    split at h
    · exact Except.noConfusion h
    split at h
    · exact Except.noConfusion h
    rename_i hres hwbc0
    rw [Decidable.not_not] at hres
    rw [Decidable.not_not] at hwbc0
    split at h
    case h_1 => exact Except.noConfusion h
    case h_2 refund hcalc =>
      split at h
      · exact Except.noConfusion h
      have hinj := (Except.ok.injEq _ _).mp h
      exact ⟨hres, hwbc0, by rw [← hinj], by rw [← hinj],
             by rw [← hinj]⟩

theorem refundBet_effects {st st' : MatchState} {who : Nat}
    (h : refundBet st who = Except.ok st') :
    st.pool.status = MatchStatus.Cancelled ∧
    st'.pool.status = st.pool.status ∧
    st'.pool.fee_bps = st.pool.fee_bps ∧
    st'.pool.winning_bet_count = st.pool.winning_bet_count := by
  unfold refundBet at h
  split at h
  case h_1 => exact Except.noConfusion h
  case h_2 bet hfb =>
    split at h
    · exact Except.noConfusion h
    rename_i hcan
    rw [Decidable.not_not] at hcan
    have hinj := (Except.ok.injEq _ _).mp h
    exact ⟨hcan, by rw [← hinj], by rw [← hinj],
           by rw [← hinj]⟩

theorem closeBet_effects {st st' : MatchState} {who : Nat}
    (h : closeBet st who = Except.ok st') :
    st.pool.status = MatchStatus.Resolved ∧
    st'.pool.status = st.pool.status ∧
    st'.pool.fee_bps = st.pool.fee_bps ∧
    st'.pool.winning_bet_count = st.pool.winning_bet_count := by
  unfold closeBet at h
  split at h
  case h_1 => exact Except.noConfusion h
  case h_2 bet hfb =>
    split at h
    · exact Except.noConfusion h
    split at h
    · exact Except.noConfusion h
    rename_i hres _
    rw [Decidable.not_not] at hres
    have hinj := (Except.ok.injEq _ _).mp h
    exact ⟨hres, by rw [← hinj], by rw [← hinj],
           by rw [← hinj]⟩

theorem sweepUnclaimed_effects {st st' : MatchState} {who : Nat} {now : Int}
    (h : sweepUnclaimed st who now = Except.ok st') :
    st.pool.status = MatchStatus.Resolved ∧
    st'.pool.status = st.pool.status ∧
    st'.pool.fee_bps = st.pool.fee_bps ∧
    st'.pool.winning_bet_count = st.pool.winning_bet_count - 1 := by
  unfold sweepUnclaimed at h
  split at h
  case h_1 => exact Except.noConfusion h
  case h_2 bet hfb =>
    split at h
    · exact Except.noConfusion h
    split at h
    · exact Except.noConfusion h
    split at h
    · exact Except.noConfusion h
    split at h
    · exact Except.noConfusion h
    rename_i hres _ _ _
    rw [Decidable.not_not] at hres
    split at h
    case h_1 => exact Except.noConfusion h
    case h_2 payout hcalc =>
      split at h
      · exact Except.noConfusion h
      have hinj := (Except.ok.injEq _ _).mp h
      exact ⟨hres, by rw [← hinj], by rw [← hinj],
             by rw [← hinj]⟩

theorem sweepCancelled_effects {st st' : MatchState} {who : Nat} {now : Int}
    (h : sweepCancelled st who now = Except.ok st') :
    st.pool.status = MatchStatus.Cancelled ∧
    st'.pool.status = st.pool.status ∧
    st'.pool.fee_bps = st.pool.fee_bps ∧
    st'.pool.winning_bet_count = st.pool.winning_bet_count := by
  unfold sweepCancelled at h
  split at h
  case h_1 => exact Except.noConfusion h
  case h_2 bet hfb =>
    split at h
    · exact Except.noConfusion h
    split at h
    · exact Except.noConfusion h
    rename_i hcan _
    rw [Decidable.not_not] at hcan
    have hinj := (Except.ok.injEq _ _).mp h
    exact ⟨hcan, by rw [← hinj], by rw [← hinj],
           by rw [← hinj]⟩

theorem withdrawFees_effects {st st' : MatchState} {now : Int}
    (h : withdrawFees st now = Except.ok st') :
    st.pool.status = MatchStatus.Resolved ∧
    st.pool.winning_bet_count = 0 ∧
    st.pool.fees_withdrawn = false ∧
    st'.pool.status = st.pool.status ∧
    st'.pool.fee_bps = st.pool.fee_bps ∧
    st'.pool.winning_bet_count = st.pool.winning_bet_count ∧
    st'.pool.fees_withdrawn = true := by
  unfold withdrawFees at h
  split at h
  · exact Except.noConfusion h
  split at h
  · exact Except.noConfusion h
  split at h
  · exact Except.noConfusion h
  split at h
  · exact Except.noConfusion h
  rename_i hres hfw hwbc0 _
  rw [Decidable.not_not] at hres
  rw [Decidable.not_not] at hwbc0
  have hfwF : st.pool.fees_withdrawn = false := by
    cases hc : st.pool.fees_withdrawn
    · rfl
    · exact absurd hc hfw
  split at h
  case h_1 => exact Except.noConfusion h
  case h_2 fee hcalc =>
    have hinj := (Except.ok.injEq _ _).mp h
    exact ⟨hres, hwbc0, hfwF, by rw [← hinj], by rw [← hinj],
           by rw [← hinj], by rw [← hinj]⟩


/-! ## Claim theorems -/

theorem liveClaim_le_maxPayout (pool : MatchPool) (fee_bps : Nat) (b : Bet) :
    liveClaimAmount pool fee_bps b ≤ maxPayout pool b := by
  unfold liveClaimAmount maxPayout
  exact le_trans (Nat.mod_le _ _)
    (Nat.div_le_div_right (Nat.mul_le_mul_right _ (Nat.sub_le _ _)))

/-- The claim-level obligations are below the inductive solvency bound. -/
theorem obligations_le_strongBound (config : PlatformConfig)
    (ms : MatchState) : obligations config ms ≤ strongBound ms := by
  unfold obligations strongBound
  cases hst : ms.pool.status
  · exact Nat.zero_le _
  · exact Nat.zero_le _
  · by_cases hz : winSideBetCount ms.pool = 0
    · rw [if_pos hz, if_pos hz]
      exact Nat.le_add_right _ _
    · rw [if_neg hz, if_neg hz]
      refine sumBy_le_sumBy ?_
      intro b _
      by_cases hb : isUnclaimedWinner ms.pool b
      · rw [if_pos hb, if_pos hb]
        exact liveClaim_le_maxPayout _ _ _
      · rw [if_neg hb, if_neg hb]
  · exact Nat.le_refl _

/-- C1: In every reachable state, for every match, the vault balance is at
least the sum of outstanding obligations against that match: the live-rate
payouts of all unclaimed winning bets on resolved matches, plus the
snapshot-rate refunds of all still-open bets on no-winner resolved matches
and the full stakes of all still-open bets on cancelled matches. (The
world tracks one match and the global config; operations on other matches
touch neither this pool nor this vault.) -/
theorem C1_vault_covers_obligations {w : World} {ms : MatchState}
    (h : Reachable w) (hm : w.matchSt = some ms) :
    obligations w.config ms ≤ ms.vault :=
  le_trans (obligations_le_strongBound w.config ms)
    (((worldInv_reachable h).2 ms hm).vaultGe)

/-- Scenario A reaches the resolved single-bet match. -/
theorem reachA5 : Reachable { config := cfgA, matchSt := some sA5 } := by
  refine ⟨{ config := cfgA, matchSt := none }, ⟨rfl, 1, 2, 3, 300, 1800, by decide⟩, ?_⟩
  refine Relation.ReflTransGen.tail (Relation.ReflTransGen.tail
    (Relation.ReflTransGen.tail (Relation.ReflTransGen.tail
      Relation.ReflTransGen.refl
      (Step.createStep _ 7 8 9 0 0 sA1 rfl (by decide) rfl))
      (Step.placeBetStep _ sA1 sA2 10 0 1000000000 0 rfl rfl))
      (Step.lockStep _ sA2 sA3 0 rfl rfl))
      (Step.resolveStep _ sA3 sA5 0 0 rfl rfl)

/-- C1 witness: the resolved scenario-A world, where the single unclaimed
winning bet is owed 970000000 lamports out of the 1000000000 in the vault. -/
theorem C1_witness :
    obligations cfgA sA5 ≤ sA5.vault ∧
    obligations cfgA sA5 = 970000000 ∧ sA5.vault = 1000000000 :=
  ⟨C1_vault_covers_obligations reachA5 rfl, by decide, by decide⟩


/-- C2 counterexample: scenario B's match is resolved with one bet on the
winning side (`winSideBetCount sB5.pool = 1`), yet after that winning bet
is claimed (`winning_bet_count` drops to 0), a later `refund_no_winners`
call by the losing bettor succeeds — the guard only checks the current
`winning_bet_count`, not whether the resolution produced winning bets. -/
theorem C2_counterexample :
    sB5.pool.status = MatchStatus.Resolved ∧
    winSideBetCount sB5.pool = 1 ∧
    claimPayout sB5 cfgB 1 = Except.ok sB6 ∧
    sB6.pool.winning_bet_count = 0 ∧
    refundNoWinners sB6 2 = Except.ok sB7 := by
  refine ⟨by decide, by decide, rfl, by decide, by decide⟩

/-- C2 (amended): `refund_no_winners` succeeds only when, at call time, the
match is Resolved and `winning_bet_count = 0`; since claims and sweeps
decrement `winning_bet_count`, this can also hold on a match that had
winning bets at resolution, once all of them were claimed or swept. -/
theorem C2_refund_no_winners_guard {st st' : MatchState} {who : Nat}
    (h : refundNoWinners st who = Except.ok st') :
    st.pool.status = MatchStatus.Resolved ∧
    st.pool.winning_bet_count = 0 :=
  ⟨(refundNoWinners_effects h).1, (refundNoWinners_effects h).2.1⟩

/-- C2 witness: the amended guard characterization at scenario B's
successful call. -/
theorem C2_witness :
    sB6.pool.status = MatchStatus.Resolved ∧
    sB6.pool.winning_bet_count = 0 :=
  @C2_refund_no_winners_guard sB6 sB7 2 (by decide)


/-- What `sweep_unclaimed` computes on success: the winner payout formula
at the match's snapshotted `pool.fee_bps`. -/
theorem sweepPayoutCalc_ok {pool : MatchPool} {amount payout : Nat}
    (h : sweepPayoutCalc pool amount = Except.ok payout) :
    payout = (pool.side_a_total + pool.side_b_total -
        (pool.side_a_total + pool.side_b_total) * pool.fee_bps / 10000)
      * amount / winSideTotal pool := by
  unfold sweepPayoutCalc at h
  dsimp only at h
  split at h
  · exact Except.noConfusion h
  split at h
  · exact Except.noConfusion h
  split at h
  · exact Except.noConfusion h
  split at h
  case h_1 => exact Except.noConfusion h
  case h_2 hwin =>
    split at h
    · exact Except.noConfusion h
    split at h
    · exact Except.noConfusion h
    split at h
    · exact Except.noConfusion h
    rw [winSideTotal, hwin]
    exact ((Except.ok.injEq _ _).mp h).symm
  case h_3 hwin =>
    split at h
    · exact Except.noConfusion h
    split at h
    · exact Except.noConfusion h
    split at h
    · exact Except.noConfusion h
    rw [winSideTotal, hwin]
    exact ((Except.ok.injEq _ _).mp h).symm

/-- C3: for an already-resolved match, every instruction step (in
particular a platform fee-rate update) leaves the match's snapshotted
`fee_bps` unchanged, and the amounts computed by `refund_no_winners`,
`sweep_unclaimed` and `withdraw_fees` are functions of that snapshot alone
— so two runs differing only in `fee_bps` updates applied after resolution
produce identical refund, sweep and fee-withdrawal amounts. (The snapshot
field itself is Modelled from the spec: `MatchPool` in the source declares
no `fee_bps` member although the three settlement handlers read
`pool.fee_bps`.) -/
theorem C3_snapshot_rate_immune {w w' : World} {ms ms' : MatchState}
    (hs : Step w w') (hm : w.matchSt = some ms)
    (hm' : w'.matchSt = some ms')
    (hres : ms.pool.status = MatchStatus.Resolved) :
    ms'.pool.fee_bps = ms.pool.fee_bps ∧
    (∀ a r, refundNoWinnersCalc ms.pool a = Except.ok r →
      r = a * (10000 - ms.pool.fee_bps) / 10000) ∧
    (∀ r, withdrawFeesCalc ms.pool = Except.ok r → r = feeSnap ms.pool) ∧
    (∀ a p, sweepPayoutCalc ms.pool a = Except.ok p →
      p = (ms.pool.side_a_total + ms.pool.side_b_total -
            (ms.pool.side_a_total + ms.pool.side_b_total)
              * ms.pool.fee_bps / 10000)
          * a / winSideTotal ms.pool) := by
  refine ⟨?_, fun a r hr => refundNoWinnersCalc_ok hr,
          fun r hr => withdrawFeesCalc_ok hr,
          fun a p hp => sweepPayoutCalc_ok hp⟩
  cases hs with
  | createStep fa fb creator rentMin now ms0 hnone hrent h =>
    rw [hnone] at hm
    exact Option.noConfusion hm
  | placeBetStep st st' who side amount now hm0 h =>
    obtain rfl : st = ms := by rw [hm0] at hm; exact Option.some.inj hm
    have := (placeBet_effects h).1
    rw [hres] at this
    exact MatchStatus.noConfusion this
  | lockStep st st' now hm0 h =>
    obtain rfl : st = ms := by rw [hm0] at hm; exact Option.some.inj hm
    have := (lockMatch_effects h).1
    rw [hres] at this
    exact MatchStatus.noConfusion this
  | resolveStep st st' winner now hm0 h =>
    obtain rfl : st = ms := by rw [hm0] at hm; exact Option.some.inj hm
    have := (resolveMatch_effects h).1
    rw [hres] at this
    exact MatchStatus.noConfusion this
  | cancelStep st st' now hm0 h =>
    obtain rfl : st = ms := by rw [hm0] at hm; exact Option.some.inj hm
    have := (cancelMatch_effects h).1
    rw [hres] at this
    rcases this with hc | hc <;> exact MatchStatus.noConfusion hc
  | timeoutStep st st' now hm0 h =>
    obtain rfl : st = ms := by rw [hm0] at hm; exact Option.some.inj hm
    have := (timeoutMatch_effects h).1
    rw [hres] at this
    exact MatchStatus.noConfusion this
  | claimStep st st' who hm0 h =>
    obtain rfl : st = ms := by rw [hm0] at hm; exact Option.some.inj hm
    obtain rfl : st' = ms' := by exact Option.some.inj hm'
    exact (claimPayout_effects h).2.2.1
  | refundNoWinnersStep st st' who hm0 h =>
    obtain rfl : st = ms := by rw [hm0] at hm; exact Option.some.inj hm
    obtain rfl : st' = ms' := by exact Option.some.inj hm'
    exact (refundNoWinners_effects h).2.2.2.1
  | refundBetStep st st' who hm0 h =>
    obtain rfl : st = ms := by rw [hm0] at hm; exact Option.some.inj hm
    have := (refundBet_effects h).1
    rw [hres] at this
    exact MatchStatus.noConfusion this
  | closeBetStep st st' who hm0 h =>
    obtain rfl : st = ms := by rw [hm0] at hm; exact Option.some.inj hm
    obtain rfl : st' = ms' := by exact Option.some.inj hm'
    exact (closeBet_effects h).2.2.1
  | sweepUnclaimedStep st st' who now hm0 h =>
    obtain rfl : st = ms := by rw [hm0] at hm; exact Option.some.inj hm
    obtain rfl : st' = ms' := by exact Option.some.inj hm'
    exact (sweepUnclaimed_effects h).2.2.1
  | sweepCancelledStep st st' who now hm0 h =>
    obtain rfl : st = ms := by rw [hm0] at hm; exact Option.some.inj hm
    have := (sweepCancelled_effects h).1
    rw [hres] at this
    exact MatchStatus.noConfusion this
  | withdrawFeesStep st st' now hm0 h =>
    obtain rfl : st = ms := by rw [hm0] at hm; exact Option.some.inj hm
    obtain rfl : st' = ms' := by exact Option.some.inj hm'
    exact (withdrawFees_effects h).2.2.2.2.1
  | closeMatchStep st hm0 h =>
    exact Option.noConfusion hm'
  | updateConfigStep cfg2 f mt p o t h =>
    obtain rfl : ms = ms' := by
      rw [hm] at hm'
      exact Option.some.inj hm'
    rfl
  | updateAuthorityStep newAuth =>
    obtain rfl : ms = ms' := by
      rw [hm] at hm'
      exact Option.some.inj hm'
    rfl

/-- C3 witness: a live fee-rate update (1000 bps → 0 bps) stepping from the
resolved scenario-B world leaves the snapshotted rate and all three
settlement amounts unchanged. -/
theorem C3_witness :
    sB5.pool.fee_bps = sB5.pool.fee_bps ∧
    (∀ a r, refundNoWinnersCalc sB5.pool a = Except.ok r →
      r = a * (10000 - sB5.pool.fee_bps) / 10000) ∧
    (∀ r, withdrawFeesCalc sB5.pool = Except.ok r → r = feeSnap sB5.pool) ∧
    (∀ a p, sweepPayoutCalc sB5.pool a = Except.ok p →
      p = (sB5.pool.side_a_total + sB5.pool.side_b_total -
            (sB5.pool.side_a_total + sB5.pool.side_b_total)
              * sB5.pool.fee_bps / 10000)
          * a / winSideTotal sB5.pool) :=
  C3_snapshot_rate_immune
    (Step.updateConfigStep { config := cfgB, matchSt := some sB5 }
      { cfgB with fee_bps := 0 } (some 0) none none none none (by decide))
    rfl rfl (by decide)


/-- C4 counterexample: `claim_payout` performs its vault debit with no
prior balance check — on a resolved state whose vault holds 0 lamports
while the computed payout is 100, the call still succeeds and the raw u64
subtraction `**vault -= payout` wraps around to 2^64 - 100. -/
theorem C4_counterexample :
    c4St.vault = 0 ∧
    claimPayoutCalc c4St.pool c4Cfg.fee_bps 100 = Except.ok 100 ∧
    (claimPayout c4St c4Cfg 1).isOk = true ∧
    (exOk (claimPayout c4St c4Cfg 1)).vault = 18446744073709551516 := by
  refine ⟨rfl, by decide, by decide, by decide⟩

/-- C4 (amended): the balance protection is per-instruction, not uniform:
`refund_no_winners` and `sweep_unclaimed` require vault ≥ amount before
the debit, `sweep_cancelled` and `withdraw_fees` cap the debit at the
vault balance, and `close_match` debits exactly the current balance —
while `claim_payout` and `refund_bet` subtract with no prior check. -/
theorem C4_checked_debits :
    (∀ (st st' : MatchState) (who : Nat),
      refundNoWinners st who = Except.ok st' →
      ∃ bet r, findBet st.bets who = some bet ∧
        refundNoWinnersCalc st.pool bet.amount = Except.ok r ∧
        r ≤ st.vault ∧ st'.vault = st.vault - r) ∧
    (∀ (st st' : MatchState) (who : Nat) (now : Int),
      sweepUnclaimed st who now = Except.ok st' →
      ∃ bet p, findBet st.bets who = some bet ∧
        sweepPayoutCalc st.pool bet.amount = Except.ok p ∧
        p ≤ st.vault ∧ st'.vault = st.vault - p) ∧
    (∀ (st st' : MatchState) (who : Nat) (now : Int),
      sweepCancelled st who now = Except.ok st' →
      ∃ bet, findBet st.bets who = some bet ∧
        min bet.amount st.vault ≤ st.vault ∧
        st'.vault = st.vault - min bet.amount st.vault) ∧
    (∀ (st st' : MatchState) (now : Int),
      withdrawFees st now = Except.ok st' →
      ∃ fee, withdrawFeesCalc st.pool = Except.ok fee ∧
        min fee st.vault ≤ st.vault ∧
        st'.vault = st.vault - min fee st.vault) := by
  refine ⟨?_, ?_, ?_, ?_⟩
  · intro st st' who h
    unfold refundNoWinners at h
    split at h
    case h_1 => exact Except.noConfusion h
    case h_2 bet hfb =>
      split at h
      · exact Except.noConfusion h
      split at h
      · exact Except.noConfusion h
      split at h
      case h_1 => exact Except.noConfusion h
      case h_2 refund hcalc =>
        split at h
        · exact Except.noConfusion h
        rename_i hbal
        rw [Decidable.not_not] at hbal
        have hinj := (Except.ok.injEq _ _).mp h
        exact ⟨bet, refund, hfb, hcalc, hbal, by rw [← hinj]⟩
  · intro st st' who now h
    unfold sweepUnclaimed at h
    split at h
    case h_1 => exact Except.noConfusion h
    case h_2 bet hfb =>
      split at h
      · exact Except.noConfusion h
      split at h
      · exact Except.noConfusion h
      split at h
      · exact Except.noConfusion h
      split at h
      · exact Except.noConfusion h
      split at h
      case h_1 => exact Except.noConfusion h
      case h_2 payout hcalc =>
        split at h
        · exact Except.noConfusion h
        rename_i hbal
        rw [Decidable.not_not] at hbal
        have hinj := (Except.ok.injEq _ _).mp h
        exact ⟨bet, payout, hfb, hcalc, hbal, by rw [← hinj]⟩
  · intro st st' who now h
    unfold sweepCancelled at h
    split at h
    case h_1 => exact Except.noConfusion h
    case h_2 bet hfb =>
      split at h
      · exact Except.noConfusion h
      split at h
      · exact Except.noConfusion h
      have hinj := (Except.ok.injEq _ _).mp h
      exact ⟨bet, hfb, Nat.min_le_right _ _, by rw [← hinj]⟩
  · intro st st' now h
    unfold withdrawFees at h
    split at h
    · exact Except.noConfusion h
    split at h
    · exact Except.noConfusion h
    split at h
    · exact Except.noConfusion h
    split at h
    · exact Except.noConfusion h
    split at h
    case h_1 => exact Except.noConfusion h
    case h_2 fee hcalc =>
      have hinj := (Except.ok.injEq _ _).mp h
      exact ⟨fee, hcalc, Nat.min_le_right _ _, by rw [← hinj]⟩

/-- C4 witness: the checked-debit characterization at scenario B's
successful `refund_no_winners` call. -/
theorem C4_witness :
    ∃ bet r, findBet sB6.bets 2 = some bet ∧
      refundNoWinnersCalc sB6.pool bet.amount = Except.ok r ∧
      r ≤ sB6.vault ∧ sB7.vault = sB6.vault - r :=
  C4_checked_debits.1 sB6 sB7 2 (by decide)


/-- Under in-range operands, `claim_payout`'s computation succeeds and
equals the floor formula exactly (no guard fires and the `as u64` cast is
the identity). -/
theorem claimPayoutCalc_exact {pool : MatchPool} {fee_bps amount : Nat}
    (hT : pool.side_a_total + pool.side_b_total < U64LIMIT)
    (hfee : fee_bps ≤ 10000)
    (hW : 0 < winSideTotal pool)
    (hwne : pool.winner ≠ MatchWinner.None)
    (hamt : amount ≤ winSideTotal pool) :
    claimPayoutCalc pool fee_bps amount =
      Except.ok ((pool.side_a_total + pool.side_b_total
        - (pool.side_a_total + pool.side_b_total) * fee_bps / 10000)
        * amount / winSideTotal pool) := by
  have hTT : pool.side_a_total + pool.side_b_total < U128LIMIT :=
    lt_trans hT (by norm_num [U64LIMIT, U128LIMIT])
  have hmul : (pool.side_a_total + pool.side_b_total) * fee_bps
      < U128LIMIT := by
    calc (pool.side_a_total + pool.side_b_total) * fee_bps
        ≤ (pool.side_a_total + pool.side_b_total) * 10000 :=
          Nat.mul_le_mul_left _ hfee
      _ < U64LIMIT * 10000 := by
          exact Nat.mul_lt_mul_of_lt_of_le hT (Nat.le_refl _) (by norm_num)
      _ < U128LIMIT := by norm_num [U64LIMIT, U128LIMIT]
  have hfle : (pool.side_a_total + pool.side_b_total) * fee_bps / 10000
      ≤ pool.side_a_total + pool.side_b_total := by
    have h1 : (pool.side_a_total + pool.side_b_total) * fee_bps / 10000
        ≤ (pool.side_a_total + pool.side_b_total) * 10000 / 10000 :=
      Nat.div_le_div_right (Nat.mul_le_mul_left _ hfee)
    rwa [Nat.mul_div_cancel _ (by norm_num)] at h1
  unfold claimPayoutCalc
  rw [if_neg (not_not_intro hTT), if_neg (not_not_intro hmul),
      if_neg (not_not_intro hfle)]
  cases hw : pool.winner
  case None => exact absurd hw hwne
  case SideA =>
    rw [winSideTotal, hw] at hW hamt ⊢
    have hWne : ¬ (pool.side_a_total = 0) := Nat.pos_iff_ne_zero.mp hW
    have hnet : pool.side_a_total + pool.side_b_total -
        (pool.side_a_total + pool.side_b_total) * fee_bps / 10000
        < U64LIMIT := lt_of_le_of_lt (Nat.sub_le _ _) hT
    have hmul2 : (pool.side_a_total + pool.side_b_total -
        (pool.side_a_total + pool.side_b_total) * fee_bps / 10000) * amount
        < U128LIMIT := by
      calc _ < U64LIMIT * U64LIMIT :=
            Nat.mul_lt_mul_of_lt_of_le hnet
              (le_trans hamt (le_trans (Nat.le_add_right _ _) (le_of_lt hT)))
              (by norm_num [U64LIMIT])
        _ = U128LIMIT := by norm_num [U64LIMIT, U128LIMIT]
    dsimp only
    rw [if_neg (not_not_intro hmul2), if_neg hWne]
    have hlt : (pool.side_a_total + pool.side_b_total -
        (pool.side_a_total + pool.side_b_total) * fee_bps / 10000) * amount
        / pool.side_a_total < U64LIMIT := by
      have h2 : (pool.side_a_total + pool.side_b_total -
          (pool.side_a_total + pool.side_b_total) * fee_bps / 10000) * amount
          / pool.side_a_total
          ≤ (pool.side_a_total + pool.side_b_total -
             (pool.side_a_total + pool.side_b_total) * fee_bps / 10000)
            * pool.side_a_total / pool.side_a_total :=
        Nat.div_le_div_right (Nat.mul_le_mul_left _ hamt)
      rw [Nat.mul_div_cancel _ hW] at h2
      exact lt_of_le_of_lt h2 hnet
    rw [Nat.mod_eq_of_lt hlt]
  case SideB =>
    rw [winSideTotal, hw] at hW hamt ⊢
    have hWne : ¬ (pool.side_b_total = 0) := Nat.pos_iff_ne_zero.mp hW
    have hnet : pool.side_a_total + pool.side_b_total -
        (pool.side_a_total + pool.side_b_total) * fee_bps / 10000
        < U64LIMIT := lt_of_le_of_lt (Nat.sub_le _ _) hT
    have hmul2 : (pool.side_a_total + pool.side_b_total -
        (pool.side_a_total + pool.side_b_total) * fee_bps / 10000) * amount
        < U128LIMIT := by
      calc _ < U64LIMIT * U64LIMIT :=
            Nat.mul_lt_mul_of_lt_of_le hnet
              (le_trans hamt (le_trans (Nat.le_add_left _ _) (le_of_lt hT)))
              (by norm_num [U64LIMIT])
        _ = U128LIMIT := by norm_num [U64LIMIT, U128LIMIT]
    dsimp only
    rw [if_neg (not_not_intro hmul2), if_neg hWne]
    have hlt : (pool.side_a_total + pool.side_b_total -
        (pool.side_a_total + pool.side_b_total) * fee_bps / 10000) * amount
        / pool.side_b_total < U64LIMIT := by
      have h2 : (pool.side_a_total + pool.side_b_total -
          (pool.side_a_total + pool.side_b_total) * fee_bps / 10000) * amount
          / pool.side_b_total
          ≤ (pool.side_a_total + pool.side_b_total -
             (pool.side_a_total + pool.side_b_total) * fee_bps / 10000)
            * pool.side_b_total / pool.side_b_total :=
        Nat.div_le_div_right (Nat.mul_le_mul_left _ hamt)
      rw [Nat.mul_div_cancel _ hW] at h2
      exact lt_of_le_of_lt h2 hnet
    rw [Nat.mod_eq_of_lt hlt]

/-- C5: for a winning unclaimed bet on a resolved match, `claim_payout`
succeeds and debits the vault by exactly
`floor(net_pool * bet.amount / winning_side_total)`, where
`net_pool = total_pool - floor(total_pool * fee_bps / 10000)` and
`fee_bps` is the **live** `platform_config.fee_bps` read at claim time.
The range hypotheses hold on reachable states: totals fit u64 since the
vault's u64 balance held the whole pool, a winner's stake is part of its
side total, and the solvency invariant covers the payout. -/
theorem C5_claim_payout_pays_live_formula {st : MatchState}
    {config : PlatformConfig} {who : Nat} {bet : Bet}
    (hfb : findBet st.bets who = some bet)
    (hres : st.pool.status = MatchStatus.Resolved)
    (hncl : bet.claimed = false)
    (hwin : bet.is_winner st.pool.winner = true)
    (hT : st.pool.side_a_total + st.pool.side_b_total < U64LIMIT)
    (hfee : config.fee_bps ≤ 10000)
    (hW : 0 < winSideTotal st.pool)
    (hamt : bet.amount ≤ winSideTotal st.pool)
    (hvlt : st.vault < U64LIMIT)
    (hcov : (st.pool.side_a_total + st.pool.side_b_total -
        (st.pool.side_a_total + st.pool.side_b_total)
          * config.fee_bps / 10000)
        * bet.amount / winSideTotal st.pool ≤ st.vault) :
    ∃ st', claimPayout st config who = Except.ok st' ∧
      st.vault - st'.vault =
        (st.pool.side_a_total + st.pool.side_b_total -
         (st.pool.side_a_total + st.pool.side_b_total)
           * config.fee_bps / 10000)
          * bet.amount / winSideTotal st.pool := by
  have hwne : st.pool.winner ≠ MatchWinner.None := by
    intro hnone
    cases h2 : bet.side <;> simp [Bet.is_winner, hnone, h2] at hwin
  unfold claimPayout
  rw [hfb]
  dsimp only
  rw [if_neg (not_not_intro hres),
      if_neg (by rw [hncl]; exact Bool.false_ne_true),
      if_neg (not_not_intro hwin),
      claimPayoutCalc_exact hT hfee hW hwne hamt]
  refine ⟨_, rfl, ?_⟩
  dsimp only
  rw [wrapSub_eq hcov hvlt]
  exact Nat.sub_sub_self hcov

/-- C5 witness: scenario A — a single 1_000_000_000 bet on the winning
side at the live rate 300 bps is paid exactly
1_000_000_000 - floor(1_000_000_000 * 300 / 10000) = 970_000_000. -/
theorem C5_witness :
    (∃ st', claimPayout sA5 cfgA 10 = Except.ok st' ∧
      sA5.vault - st'.vault =
        (sA5.pool.side_a_total + sA5.pool.side_b_total -
         (sA5.pool.side_a_total + sA5.pool.side_b_total)
           * cfgA.fee_bps / 10000)
          * 1000000000 / winSideTotal sA5.pool) ∧
    (sA5.pool.side_a_total + sA5.pool.side_b_total -
     (sA5.pool.side_a_total + sA5.pool.side_b_total)
       * cfgA.fee_bps / 10000)
      * 1000000000 / winSideTotal sA5.pool = 970000000 :=
  ⟨@C5_claim_payout_pays_live_formula sA5 cfgA 10
    { bettor := 10, side := BetSide.SideA, amount := 1000000000,
      claimed := false }
    (by decide) (by decide) (by decide) (by decide) (by decide) (by decide)
    (by decide) (by decide) (by decide) (by decide), by decide⟩


/-- C6: in any single successful instruction on a live match, the status
either stays the same or moves along one of the allowed edges —
Open→Locked (`lock_match`), Locked→Resolved (`resolve_match`), or
Open/Locked→Cancelled (`cancel_match`, `timeout_match`); and once the
status is Resolved or Cancelled no step ever changes it. -/
theorem C6_status_machine {w w' : World} (hs : Step w w')
    {st st' : MatchState} (hm : w.matchSt = some st)
    (hm' : w'.matchSt = some st') :
    (st'.pool.status = st.pool.status ∨
     (st.pool.status = MatchStatus.Open ∧
      st'.pool.status = MatchStatus.Locked) ∨
     (st.pool.status = MatchStatus.Locked ∧
      st'.pool.status = MatchStatus.Resolved) ∨
     ((st.pool.status = MatchStatus.Open ∨
       st.pool.status = MatchStatus.Locked) ∧
      st'.pool.status = MatchStatus.Cancelled)) ∧
    ((st.pool.status = MatchStatus.Resolved ∨
      st.pool.status = MatchStatus.Cancelled) →
     st'.pool.status = st.pool.status) := by
  cases hs with
  | createStep fa fb creator rentMin now ms hnone hrent h =>
    rw [hnone] at hm
    exact Option.noConfusion hm
  | placeBetStep st0 st1 who side amount now hm0 h =>
    rw [hm0] at hm
    injection hm with e0
    injection hm' with e1
    rw [← e0, ← e1]
    exact ⟨Or.inl (placeBet_effects h).2.1,
           fun _ => (placeBet_effects h).2.1⟩
  | lockStep st0 st1 now hm0 h =>
    rw [hm0] at hm
    injection hm with e0
    injection hm' with e1
    rw [← e0, ← e1]
    refine ⟨Or.inr (Or.inl ⟨(lockMatch_effects h).1,
      (lockMatch_effects h).2.1⟩), ?_⟩
    intro hterm
    rcases hterm with ht | ht <;> rw [(lockMatch_effects h).1] at ht <;>
      exact MatchStatus.noConfusion ht
  | resolveStep st0 st1 winner now hm0 h =>
    rw [hm0] at hm
    injection hm with e0
    injection hm' with e1
    rw [← e0, ← e1]
    refine ⟨Or.inr (Or.inr (Or.inl ⟨(resolveMatch_effects h).1,
      (resolveMatch_effects h).2.1⟩)), ?_⟩
    intro hterm
    rcases hterm with ht | ht <;> rw [(resolveMatch_effects h).1] at ht <;>
      exact MatchStatus.noConfusion ht
  | cancelStep st0 st1 now hm0 h =>
    rw [hm0] at hm
    injection hm with e0
    injection hm' with e1
    rw [← e0, ← e1]
    refine ⟨Or.inr (Or.inr (Or.inr ⟨(cancelMatch_effects h).1,
      (cancelMatch_effects h).2.1⟩)), ?_⟩
    intro hterm
    rcases (cancelMatch_effects h).1 with hol | hol <;>
      rcases hterm with ht | ht <;> rw [hol] at ht <;>
      exact MatchStatus.noConfusion ht
  | timeoutStep st0 st1 now hm0 h =>
    rw [hm0] at hm
    injection hm with e0
    injection hm' with e1
    rw [← e0, ← e1]
    refine ⟨Or.inr (Or.inr (Or.inr ⟨Or.inr (timeoutMatch_effects h).1,
      (timeoutMatch_effects h).2.1⟩)), ?_⟩
    intro hterm
    rcases hterm with ht | ht <;> rw [(timeoutMatch_effects h).1] at ht <;>
      exact MatchStatus.noConfusion ht
  | claimStep st0 st1 who hm0 h =>
    rw [hm0] at hm
    injection hm with e0
    injection hm' with e1
    rw [← e0, ← e1]
    exact ⟨Or.inl (claimPayout_effects h).2.1,
           fun _ => (claimPayout_effects h).2.1⟩
  | refundNoWinnersStep st0 st1 who hm0 h =>
    rw [hm0] at hm
    injection hm with e0
    injection hm' with e1
    rw [← e0, ← e1]
    exact ⟨Or.inl (refundNoWinners_effects h).2.2.1,
           fun _ => (refundNoWinners_effects h).2.2.1⟩
  | refundBetStep st0 st1 who hm0 h =>
    rw [hm0] at hm
    injection hm with e0
    injection hm' with e1
    rw [← e0, ← e1]
    exact ⟨Or.inl (refundBet_effects h).2.1,
           fun _ => (refundBet_effects h).2.1⟩
  | closeBetStep st0 st1 who hm0 h =>
    rw [hm0] at hm
    injection hm with e0
    injection hm' with e1
    rw [← e0, ← e1]
    exact ⟨Or.inl (closeBet_effects h).2.1,
           fun _ => (closeBet_effects h).2.1⟩
  | sweepUnclaimedStep st0 st1 who now hm0 h =>
    rw [hm0] at hm
    injection hm with e0
    injection hm' with e1
    rw [← e0, ← e1]
    exact ⟨Or.inl (sweepUnclaimed_effects h).2.1,
           fun _ => (sweepUnclaimed_effects h).2.1⟩
  | sweepCancelledStep st0 st1 who now hm0 h =>
    rw [hm0] at hm
    injection hm with e0
    injection hm' with e1
    rw [← e0, ← e1]
    exact ⟨Or.inl (sweepCancelled_effects h).2.1,
           fun _ => (sweepCancelled_effects h).2.1⟩
  | withdrawFeesStep st0 st1 now hm0 h =>
    rw [hm0] at hm
    injection hm with e0
    injection hm' with e1
    rw [← e0, ← e1]
    exact ⟨Or.inl (withdrawFees_effects h).2.2.2.1,
           fun _ => (withdrawFees_effects h).2.2.2.1⟩
  | closeMatchStep st0 hm0 h =>
    exact Option.noConfusion hm'
  | updateConfigStep cfg fee_bps match_timeout paused oracle treasury h =>
    rw [hm] at hm'
    injection hm' with e1
    rw [e1]
    exact ⟨Or.inl rfl, fun _ => rfl⟩
  | updateAuthorityStep newAuthority =>
    rw [hm] at hm'
    injection hm' with e1
    rw [e1]
    exact ⟨Or.inl rfl, fun _ => rfl⟩

/-- C6 witness: the scenario-A lock step takes the status along the
Open→Locked edge. -/
theorem C6_witness :
    (sA3.pool.status = sA2.pool.status ∨
     (sA2.pool.status = MatchStatus.Open ∧
      sA3.pool.status = MatchStatus.Locked) ∨
     (sA2.pool.status = MatchStatus.Locked ∧
      sA3.pool.status = MatchStatus.Resolved) ∨
     ((sA2.pool.status = MatchStatus.Open ∨
       sA2.pool.status = MatchStatus.Locked) ∧
      sA3.pool.status = MatchStatus.Cancelled)) ∧
    ((sA2.pool.status = MatchStatus.Resolved ∨
      sA2.pool.status = MatchStatus.Cancelled) →
     sA3.pool.status = sA2.pool.status) :=
  C6_status_machine
    (Step.lockStep { config := cfgA, matchSt := some sA2 } sA2 sA3 0 rfl rfl)
    rfl rfl


/-- A bet found by `find_bet` is in the list. -/
theorem findBet_mem {l : List Bet} {who : Nat} {b : Bet}
    (h : findBet l who = some b) : b ∈ l := by
  unfold findBet at h
  exact List.mem_of_find?_eq_some h

/-- A listed unclaimed winner makes `countUW` positive. -/
theorem countUW_pos {pool : MatchPool} {l : List Bet} {b : Bet}
    (hmem : b ∈ l) (hP : isUnclaimedWinner pool b = true) :
    0 < countUW pool l := by
  unfold countUW
  exact List.countP_pos_iff.mpr ⟨b, hmem, hP⟩

/-- A successful `claim_payout` found an unclaimed winning bet. -/
theorem claimPayout_finds {st st' : MatchState} {config : PlatformConfig}
    {who : Nat} (h : claimPayout st config who = Except.ok st') :
    ∃ bet, findBet st.bets who = some bet ∧ bet.claimed = false ∧
      bet.is_winner st.pool.winner = true := by
  unfold claimPayout at h
  split at h
  case h_1 => exact Except.noConfusion h
  case h_2 bet hfb =>
    split at h
    · exact Except.noConfusion h
    split at h
    · exact Except.noConfusion h
    split at h
    · exact Except.noConfusion h
    rename_i _ hcl hwin
    rw [Decidable.not_not] at hwin
    have hclF : bet.claimed = false := by
      cases hc : bet.claimed
      · rfl
      · exact absurd hc hcl
    exact ⟨bet, hfb, hclF, hwin⟩

/-- A successful `sweep_unclaimed` found an unclaimed winning bet. -/
theorem sweepUnclaimed_finds {st st' : MatchState} {who : Nat} {now : Int}
    (h : sweepUnclaimed st who now = Except.ok st') :
    ∃ bet, findBet st.bets who = some bet ∧ bet.claimed = false ∧
      bet.is_winner st.pool.winner = true := by
  unfold sweepUnclaimed at h
  split at h
  case h_1 => exact Except.noConfusion h
  case h_2 bet hfb =>
    split at h
    · exact Except.noConfusion h
    split at h
    · exact Except.noConfusion h
    split at h
    · exact Except.noConfusion h
    rename_i _ hcl hwin
    rw [Decidable.not_not] at hwin
    have hclF : bet.claimed = false := by
      cases hc : bet.claimed
      · rfl
      · exact absurd hc hcl
    exact ⟨bet, hfb, hclF, hwin⟩

/-- C7: on a reachable live match, `winning_bet_count` is 0 throughout
Open/Locked, so the single assignment is `resolve_match`'s write of the
winning side's bet count; every other step either leaves it unchanged or
— only `claim_payout`/`sweep_unclaimed`, with the count provably positive
— decrements it by exactly one; it is never increased or reset. -/
theorem C7_winning_bet_count {w w' : World} (hr : Reachable w)
    (hs : Step w w') {st st' : MatchState} (hm : w.matchSt = some st)
    (hm' : w'.matchSt = some st') :
    (st.pool.status = MatchStatus.Open ∨
     st.pool.status = MatchStatus.Locked →
     st.pool.winning_bet_count = 0) ∧
    ((st.pool.status = MatchStatus.Locked ∧
      st'.pool.status = MatchStatus.Resolved ∧
      st'.pool.winning_bet_count = winSideBetCount st'.pool) ∨
     st'.pool.winning_bet_count = st.pool.winning_bet_count ∨
     (0 < st.pool.winning_bet_count ∧
      st'.pool.winning_bet_count = st.pool.winning_bet_count - 1)) := by
  have hinv : MatchInv st := (worldInv_reachable hr).2 st hm
  refine ⟨fun hol => (hinv.preInv hol).2.1, ?_⟩
  cases hs with
  | createStep fa fb creator rentMin now ms hnone hrent h =>
    rw [hnone] at hm
    exact Option.noConfusion hm
  | placeBetStep st0 st1 who side amount now hm0 h =>
    rw [hm0] at hm
    injection hm with e0
    injection hm' with e1
    subst e0
    subst e1
    exact Or.inr (Or.inl (placeBet_effects h).2.2.2)
  | lockStep st0 st1 now hm0 h =>
    rw [hm0] at hm
    injection hm with e0
    injection hm' with e1
    subst e0
    subst e1
    exact Or.inr (Or.inl (lockMatch_effects h).2.2.2)
  | resolveStep st0 st1 winner now hm0 h =>
    rw [hm0] at hm
    injection hm with e0
    injection hm' with e1
    subst e0
    subst e1
    exact Or.inl ⟨(resolveMatch_effects h).1, (resolveMatch_effects h).2.1,
      (resolveMatch_effects h).2.2.2.1⟩
  | cancelStep st0 st1 now hm0 h =>
    rw [hm0] at hm
    injection hm with e0
    injection hm' with e1
    subst e0
    subst e1
    exact Or.inr (Or.inl (cancelMatch_effects h).2.2.2)
  | timeoutStep st0 st1 now hm0 h =>
    rw [hm0] at hm
    injection hm with e0
    injection hm' with e1
    subst e0
    subst e1
    exact Or.inr (Or.inl (timeoutMatch_effects h).2.2.2)
  | claimStep st0 st1 who hm0 h =>
    rw [hm0] at hm
    injection hm with e0
    injection hm' with e1
    subst e0
    subst e1
    obtain ⟨bet, hfb, hcl, hwin⟩ := claimPayout_finds h
    have hri : ResolvedInv st0 := hinv.resInv (claimPayout_effects h).1
    have hne : winSideBetCount st0.pool ≠ 0 := by
      intro h0
      have hlose := hri.2.2.1 h0 bet (findBet_mem hfb)
      rw [hwin] at hlose
      exact Bool.noConfusion hlose
    refine Or.inr (Or.inr ⟨?_, (claimPayout_effects h).2.2.2⟩)
    rw [(hri.2.2.2 hne).2]
    refine countUW_pos (findBet_mem hfb) ?_
    rw [isUnclaimedWinner, hwin, hcl]
    rfl
  | refundNoWinnersStep st0 st1 who hm0 h =>
    rw [hm0] at hm
    injection hm with e0
    injection hm' with e1
    subst e0
    subst e1
    exact Or.inr (Or.inl (refundNoWinners_effects h).2.2.2.2)
  | refundBetStep st0 st1 who hm0 h =>
    rw [hm0] at hm
    injection hm with e0
    injection hm' with e1
    subst e0
    subst e1
    exact Or.inr (Or.inl (refundBet_effects h).2.2.2)
  | closeBetStep st0 st1 who hm0 h =>
    rw [hm0] at hm
    injection hm with e0
    injection hm' with e1
    subst e0
    subst e1
    exact Or.inr (Or.inl (closeBet_effects h).2.2.2)
  | sweepUnclaimedStep st0 st1 who now hm0 h =>
    rw [hm0] at hm
    injection hm with e0
    injection hm' with e1
    subst e0
    subst e1
    obtain ⟨bet, hfb, hcl, hwin⟩ := sweepUnclaimed_finds h
    have hri : ResolvedInv st0 := hinv.resInv (sweepUnclaimed_effects h).1
    have hne : winSideBetCount st0.pool ≠ 0 := by
      intro h0
      have hlose := hri.2.2.1 h0 bet (findBet_mem hfb)
      rw [hwin] at hlose
      exact Bool.noConfusion hlose
    refine Or.inr (Or.inr ⟨?_, (sweepUnclaimed_effects h).2.2.2⟩)
    rw [(hri.2.2.2 hne).2]
    refine countUW_pos (findBet_mem hfb) ?_
    rw [isUnclaimedWinner, hwin, hcl]
    rfl
  | sweepCancelledStep st0 st1 who now hm0 h =>
    rw [hm0] at hm
    injection hm with e0
    injection hm' with e1
    subst e0
    subst e1
    exact Or.inr (Or.inl (sweepCancelled_effects h).2.2.2)
  | withdrawFeesStep st0 st1 now hm0 h =>
    rw [hm0] at hm
    injection hm with e0
    injection hm' with e1
    subst e0
    subst e1
    exact Or.inr (Or.inl (withdrawFees_effects h).2.2.2.2.2.1)
  | closeMatchStep st0 hm0 h =>
    exact Option.noConfusion hm'
  | updateConfigStep cfg fee_bps match_timeout paused oracle treasury h =>
    rw [hm] at hm'
    injection hm' with e1
    rw [e1]
    exact Or.inr (Or.inl rfl)
  | updateAuthorityStep newAuthority =>
    rw [hm] at hm'
    injection hm' with e1
    rw [e1]
    exact Or.inr (Or.inl rfl)

/-- C7 witness: scenario A's claim step decrements `winning_bet_count`
from its provably positive value by one. -/
theorem C7_witness :
    (sA5.pool.status = MatchStatus.Open ∨
     sA5.pool.status = MatchStatus.Locked →
     sA5.pool.winning_bet_count = 0) ∧
    ((sA5.pool.status = MatchStatus.Locked ∧
      sA6.pool.status = MatchStatus.Resolved ∧
      sA6.pool.winning_bet_count = winSideBetCount sA6.pool) ∨
     sA6.pool.winning_bet_count = sA5.pool.winning_bet_count ∨
     (0 < sA5.pool.winning_bet_count ∧
      sA6.pool.winning_bet_count = sA5.pool.winning_bet_count - 1)) :=
  C7_winning_bet_count reachA5
    (Step.claimStep { config := cfgA, matchSt := some sA5 } sA5 sA6 10
      rfl rfl)
    rfl rfl


/-- Proportional floor payouts over any predicate never exceed the
numerator pool: if the selected amounts sum to `W`, then
`Σ floor(T * amount / W) ≤ T`. -/
theorem payouts_le_pred (p : Bet → Bool) {T W : Nat} {l : List Bet}
    (hW : 0 < W)
    (hsum : sumBy (fun b => if p b then b.amount else 0) l = W) :
    sumBy (fun b => if p b then T * b.amount / W else 0) l ≤ T := by
  have h1 : sumBy (fun b => if p b then T * b.amount / W else 0) l
      = sumBy (fun b => (if p b then T * b.amount else 0) / W) l := by
    refine sumBy_congr ?_
    intro b _
    by_cases hb : p b
    · rw [if_pos hb, if_pos hb]
    · rw [if_neg hb, if_neg hb, Nat.zero_div]
  have h2 : sumBy (fun b => if p b then T * b.amount else 0) l
      = T * W := by
    rw [show (fun b : Bet => if p b then T * b.amount else 0)
          = fun b : Bet => T * (if p b then b.amount else 0) from
        funext ?_, sumBy_mul_left, hsum]
    intro b
    by_cases hb : p b
    · rw [if_pos hb, if_pos hb]
    · rw [if_neg hb, if_neg hb, Nat.mul_zero]
  calc sumBy (fun b => if p b then T * b.amount / W else 0) l
      = sumBy (fun b => (if p b then T * b.amount else 0) / W) l := h1
    _ ≤ sumBy (fun b => if p b then T * b.amount else 0) l / W :=
        sumBy_div_le _ _ _
    _ = T * W / W := by rw [h2]
    _ = T := Nat.mul_div_cancel _ hW

/-- C8: on a resolved match with a positive winning-side total, the sum
over all winning bets of `floor(net_pool * amount / winning_side_total)`
plus the fee `floor(total_pool * fee_bps / 10000)` is at most
`total_pool = side_a_total + side_b_total` (the rounding loss is the
non-negative difference). `hsum` records that the winning bets' stakes
sum to the winning side's total, as the invariant guarantees. -/
theorem C8_payouts_plus_fee_le_total {pool : MatchPool} {bets : List Bet}
    (hW : 0 < winSideTotal pool)
    (hfee : pool.fee_bps ≤ 10000)
    (hsum : sumBy (fun b => if b.is_winner pool.winner = true
        then b.amount else 0) bets = winSideTotal pool) :
    sumBy (fun b => if b.is_winner pool.winner = true then
        (pool.side_a_total + pool.side_b_total -
         (pool.side_a_total + pool.side_b_total) * pool.fee_bps / 10000)
          * b.amount / winSideTotal pool
      else 0) bets
    + (pool.side_a_total + pool.side_b_total) * pool.fee_bps / 10000
    ≤ pool.side_a_total + pool.side_b_total := by
  have hfle : (pool.side_a_total + pool.side_b_total) * pool.fee_bps / 10000
      ≤ pool.side_a_total + pool.side_b_total := by
    have h1 : (pool.side_a_total + pool.side_b_total) * pool.fee_bps / 10000
        ≤ (pool.side_a_total + pool.side_b_total) * 10000 / 10000 :=
      Nat.div_le_div_right (Nat.mul_le_mul_left _ hfee)
    rwa [Nat.mul_div_cancel _ (by norm_num)] at h1
  have hple : sumBy (fun b => if b.is_winner pool.winner = true then
      (pool.side_a_total + pool.side_b_total -
       (pool.side_a_total + pool.side_b_total) * pool.fee_bps / 10000)
        * b.amount / winSideTotal pool
      else 0) bets
      ≤ pool.side_a_total + pool.side_b_total -
        (pool.side_a_total + pool.side_b_total) * pool.fee_bps / 10000 :=
    payouts_le_pred (fun b => b.is_winner pool.winner) hW hsum
  omega

/-- C8 witness: the resolved scenario-A pool — one winning bet of 1e9 at
300 bps: payout 970000000 plus fee 30000000 equals the pool exactly. -/
theorem C8_witness :
    sumBy (fun b => if b.is_winner sA5.pool.winner = true then
        (sA5.pool.side_a_total + sA5.pool.side_b_total -
         (sA5.pool.side_a_total + sA5.pool.side_b_total)
           * sA5.pool.fee_bps / 10000)
          * b.amount / winSideTotal sA5.pool
      else 0) sA5.bets
    + (sA5.pool.side_a_total + sA5.pool.side_b_total)
        * sA5.pool.fee_bps / 10000
    ≤ sA5.pool.side_a_total + sA5.pool.side_b_total :=
  C8_payouts_plus_fee_le_total (by decide) (by decide) (by decide)


/-- `set_claimed` preserves bettor keys, so a found bet is found again
with its `claimed` flag set. -/
theorem findBet_setClaimed {l : List Bet} {who : Nat} {b : Bet}
    (h : findBet l who = some b) :
    findBet (setClaimed l who) who = some { b with claimed := true } := by
  unfold findBet at h ⊢
  unfold setClaimed
  rw [List.find?_map]
  have hp : ((fun x : Bet => x.bettor == who) ∘ fun x : Bet =>
      if x.bettor == who then { x with claimed := true } else x)
      = fun x : Bet => x.bettor == who := by
    funext x
    cases hx : (x.bettor == who) <;> simp [Function.comp, hx]
  rw [hp, h]
  have hb := List.find?_some h
  have hbe : b.bettor = who := by simpa using hb
  simp [hbe]

/-- The post-state of a successful `claim_payout` carries the claimed bet
marked claimed. -/
theorem claimPayout_bets {st st' : MatchState} {config : PlatformConfig}
    {who : Nat} (h : claimPayout st config who = Except.ok st') :
    st'.bets = setClaimed st.bets who := by
  unfold claimPayout at h
  split at h
  case h_1 => exact Except.noConfusion h
  case h_2 bet hfb =>
    split at h
    · exact Except.noConfusion h
    split at h
    · exact Except.noConfusion h
    split at h
    · exact Except.noConfusion h
    split at h
    case h_1 => exact Except.noConfusion h
    case h_2 payout hcalc =>
      have hinj := (Except.ok.injEq _ _).mp h
      rw [← hinj]

/-- C9: a second `claim_payout` on the same bet fails with
`AlreadyClaimed`, and a second `withdraw_fees` on the same match fails
with `FeesAlreadyWithdrawn` (the embedding returns the error with no
state, mirroring the transaction aborting with no account mutation);
the hypotheses are the first calls succeeding. -/
theorem C9_second_calls_fail :
    (∀ (st st' : MatchState) (c c' : PlatformConfig) (who : Nat),
      claimPayout st c who = Except.ok st' →
      claimPayout st' c' who = Except.error RawlError.AlreadyClaimed) ∧
    (∀ (st st' : MatchState) (n n' : Int),
      withdrawFees st n = Except.ok st' →
      withdrawFees st' n' = Except.error RawlError.FeesAlreadyWithdrawn) := by
  constructor
  · intro st st' c c' who h
    obtain ⟨bet, hfb, hcl, hwin⟩ := claimPayout_finds h
    have hres' : st'.pool.status = MatchStatus.Resolved := by
      rw [(claimPayout_effects h).2.1]
      exact (claimPayout_effects h).1
    have hfb' : findBet st'.bets who = some { bet with claimed := true } := by
      rw [claimPayout_bets h]
      exact findBet_setClaimed hfb
    unfold claimPayout
    rw [hfb']
    dsimp only
    rw [if_neg (not_not_intro hres'),
        if_pos (show ({ bet with claimed := true } : Bet).claimed = true
          from rfl)]
  · intro st st' n n' h
    have hres' : st'.pool.status = MatchStatus.Resolved := by
      rw [(withdrawFees_effects h).2.2.2.1]
      exact (withdrawFees_effects h).1
    have hfw' : st'.pool.fees_withdrawn = true :=
      (withdrawFees_effects h).2.2.2.2.2.2
    unfold withdrawFees
    rw [if_neg (not_not_intro hres'), if_pos hfw']

/-- C9 witness: scenario A — after the winner claims, a second claim
fails with AlreadyClaimed; after the fees are withdrawn, a second
withdrawal fails with FeesAlreadyWithdrawn. -/
theorem C9_witness :
    claimPayout sA6 cfgA 10 = Except.error RawlError.AlreadyClaimed ∧
    withdrawFees sA7 0 = Except.error RawlError.FeesAlreadyWithdrawn :=
  ⟨C9_second_calls_fail.1 sA5 sA6 cfgA cfgA 10 (by decide),
   C9_second_calls_fail.2 sA6 sA7 2592000 0 (by decide)⟩


set_option maxHeartbeats 3200000 in
/-- With `min_bet = 0` and `betting_window = 0`, the `place_bet`
minimum-bet and betting-window gates can never fire: both are guarded by
`min_bet > 0` / `betting_window > 0`. -/
theorem placeBet_no_gate_rejects {st : MatchState}
    (hmin : st.pool.min_bet = 0) (hwin : st.pool.betting_window = 0)
    (who side amount : Nat) (now : Int) :
    placeBet st who side amount now ≠
      Except.error RawlError.BetBelowMinimum ∧
    placeBet st who side amount now ≠
      Except.error RawlError.BettingWindowClosed := by
  constructor <;>
    · intro heq
      unfold placeBet at heq
      rw [hmin, hwin] at heq
      split at heq
      · exact RawlError.noConfusion ((Except.error.injEq _ _).mp heq)
      split at heq
      · exact RawlError.noConfusion ((Except.error.injEq _ _).mp heq)
      split at heq
      · exact RawlError.noConfusion ((Except.error.injEq _ _).mp heq)
      split at heq
      · rename_i hc
        exact absurd hc.1 (lt_irrefl 0)
      split at heq
      · rename_i hc
        exact absurd hc.1 (lt_irrefl 0)
      split at heq
      · exact RawlError.noConfusion ((Except.error.injEq _ _).mp heq)
      split at heq
      case h_1 =>
        split at heq
        · exact RawlError.noConfusion ((Except.error.injEq _ _).mp heq)
        split at heq
        · exact RawlError.noConfusion ((Except.error.injEq _ _).mp heq)
        split at heq
        · exact RawlError.noConfusion ((Except.error.injEq _ _).mp heq)
        exact Except.noConfusion heq
      case h_2 =>
        split at heq
        · exact RawlError.noConfusion ((Except.error.injEq _ _).mp heq)
        split at heq
        · exact RawlError.noConfusion ((Except.error.injEq _ _).mp heq)
        split at heq
        · exact RawlError.noConfusion ((Except.error.injEq _ _).mp heq)
        exact Except.noConfusion heq
      case h_3 => exact RawlError.noConfusion ((Except.error.injEq _ _).mp heq)

/-- Scenario A reaches the fresh open match. -/
theorem reachA1 : Reachable { config := cfgA, matchSt := some sA1 } := by
  refine ⟨{ config := cfgA, matchSt := none },
    ⟨rfl, 1, 2, 3, 300, 1800, by decide⟩, ?_⟩
  exact Relation.ReflTransGen.single
    (Step.createStep _ 7 8 9 0 0 sA1 rfl (by decide) rfl)

/-- C10: in every reachable state the live match has `min_bet = 0` and
`betting_window = 0` (`create_match` leaves both fields zeroed and no
instruction writes them), so the `place_bet` minimum-bet and
betting-window gates never reject any bet. -/
theorem C10_min_bet_window_zero {w : World} {st : MatchState}
    (hr : Reachable w) (hm : w.matchSt = some st) :
    st.pool.min_bet = 0 ∧ st.pool.betting_window = 0 ∧
    ∀ (who side amount : Nat) (now : Int),
      placeBet st who side amount now ≠
        Except.error RawlError.BetBelowMinimum ∧
      placeBet st who side amount now ≠
        Except.error RawlError.BettingWindowClosed := by
  have hinv : MatchInv st := (worldInv_reachable hr).2 st hm
  exact ⟨hinv.minBetZero, hinv.windowZero,
    fun who side amount now =>
      placeBet_no_gate_rejects hinv.minBetZero hinv.windowZero
        who side amount now⟩

/-- C10 witness: the freshly created scenario-A match has both fields
zero, and a sample bet is never rejected by the two gates. -/
theorem C10_witness :
    sA1.pool.min_bet = 0 ∧ sA1.pool.betting_window = 0 ∧
    (placeBet sA1 5 0 7 0 ≠ Except.error RawlError.BetBelowMinimum ∧
     placeBet sA1 5 0 7 0 ≠ Except.error RawlError.BettingWindowClosed) :=
  ⟨(C10_min_bet_window_zero reachA1 rfl).1,
   (C10_min_bet_window_zero reachA1 rfl).2.1,
   (C10_min_bet_window_zero reachA1 rfl).2.2 5 0 7 0⟩

end Rawl
